import Mathlib

set_option autoImplicit false

/-!
# Verification of the datasrv ingestion-and-persistence pipeline

Shallow embedding of the `kongken/datasrv` repository: the DAO data model
(`dao.go`), the PostgreSQL/ent relational adapter (`postgres.go`, given as
`src/unnamed/part_005`), the ent schema constraints (`src/unnamed/part_006..008`)
and the GitHub ingestion service (`github.go`).

Modelling conventions:
* Go `int64`/`int32` become `Int`; `time.Time` becomes `Int` (an absolute
  instant); Go pointer-optionals (`*time.Time`, `*int64`) become `Option`.
* The database is a pure `Store` value.  ent/Postgres semantics are made
  explicit: `Create` fails on a colliding primary key, `NotEmpty` string
  validators reject empty strings, and foreign-key columns
  (`issues.user_id`, `issues.milestone_id`, the label/assignee join rows)
  must reference existing rows or the `Save` fails.
* A transaction is a `Store` snapshot updated in place; `Rollback` returns
  the caller's store unchanged, `Commit` adopts the transaction's store.
* Queries executed by the Go code against a live database can also fail
  transiently; a pure lookup cannot.  A `Faults` oracle injects such errors
  (and commit failures) at the exact program points where the Go code issues
  the corresponding query, so that the error-handling paths of the source
  are part of the model.
-/

/-- Database/adapter errors, mirroring the error kinds distinguished by the
Go code (`ent.IsNotFound`, unique-constraint violations on create,
`NotEmpty` field validators, foreign-key violations, and wrapped transient
failures). -/
inductive DBError where
  | notFound : DBError
  | alreadyExists : Int → DBError
  | validation : DBError
  | fkViolation : DBError
  | transient : DBError
deriving Repr, DecidableEq

/-- `dao.IssueModel` (dao.go): the storage-agnostic issue record handed to
the adapter. `ClosedAt`/`MilestoneID` are pointers in Go, hence `Option`;
`UserID = 0` is the Go zero value meaning "no creator". -/
structure IssueModel where
  id : Int
  number : Int
  title : String
  body : String
  state : String
  comments : Int
  htmlURL : String
  locked : Bool
  createdAt : Int
  updatedAt : Int
  closedAt : Option Int
  userID : Int
  milestoneID : Option Int
  labels : List Int
  assignees : List Int
deriving Repr, DecidableEq

/-- `dao.UserModel` (dao.go). -/
structure UserModel where
  id : Int
  login : String
  avatarURL : String
  htmlURL : String
deriving Repr, DecidableEq

/-- `dao.LabelModel` (dao.go). -/
structure LabelModel where
  id : Int
  name : String
  color : String
  description : String
deriving Repr, DecidableEq

/-- `dao.MilestoneModel` (dao.go). -/
structure MilestoneModel where
  id : Int
  number : Int
  title : String
  description : String
  state : String
  dueOn : Option Int
  createdAt : Int
  updatedAt : Int
deriving Repr, DecidableEq

/-- `dao.RepositoryModel` (dao.go). -/
structure RepositoryModel where
  id : Int
  name : String
  fullName : String
  ownerLogin : String
  description : String
  private_ : Bool
  archived : Bool
  disabled : Bool
  htmlURL : String
  defaultBranch : String
  language : String
  stargazersCount : Int
  forksCount : Int
  openIssuesCount : Int
  createdAt : Int
  updatedAt : Int
  pushedAt : Option Int
deriving Repr, DecidableEq

/-- A stored issue row per the ent `Issue` schema (part_006): scalar columns
plus the nullable `closed_at`, the optional `user_id` FK column and the
nullable `milestone_id` FK column. -/
structure IssueRow where
  id : Int
  number : Int
  title : String
  body : String
  state : String
  comments : Int
  htmlURL : String
  locked : Bool
  createdAt : Int
  updatedAt : Int
  closedAt : Option Int
  userID : Option Int
  milestoneID : Option Int
deriving Repr, DecidableEq

/-- The relational store: one table per entity plus the two join tables ent
generates for the `labels` and `assignees` edges of `Issue`
(rows are `(issue_id, linked_id)` pairs). -/
structure Store where
  users : List UserModel
  labels : List LabelModel
  milestones : List MilestoneModel
  issues : List IssueRow
  issueLabels : List (Int × Int)
  issueAssignees : List (Int × Int)
  repos : List RepositoryModel
deriving Repr, DecidableEq

/-- The empty database. -/
def Store.empty : Store := ⟨[], [], [], [], [], [], []⟩

def hasUser (st : Store) (id : Int) : Bool := st.users.any (fun u => u.id == id)

def hasLabel (st : Store) (id : Int) : Bool := st.labels.any (fun l => l.id == id)

def hasMilestone (st : Store) (id : Int) : Bool :=
  st.milestones.any (fun m => m.id == id)

def hasIssue (st : Store) (id : Int) : Bool := st.issues.any (fun i => i.id == id)

/-- `CreateUser` (postgres.go 324-337): ent `Create` — the `login` field has
a `NotEmpty` validator, and the insert fails on a colliding primary key. -/
def CreateUser (st : Store) (u : UserModel) : Except DBError Store :=
  if u.login = "" then .error .validation
  else if hasUser st u.id then .error (.alreadyExists u.id)
  else .ok { st with users := st.users ++ [u] }

/-- `UpsertUser` (postgres.go 358-379): look up by id; `NotFound` → create;
present → overwrite all mutable fields in place. -/
def UpsertUser (st : Store) (u : UserModel) : Except DBError Store :=
  if hasUser st u.id then
    if u.login = "" then .error .validation
    else .ok { st with
      users := st.users.map (fun r => if r.id == u.id then u else r) }
  else CreateUser st u

/-- `CreateLabel` (postgres.go 382-395): `name` has a `NotEmpty` validator. -/
def CreateLabel (st : Store) (l : LabelModel) : Except DBError Store :=
  if l.name = "" then .error .validation
  else if hasLabel st l.id then .error (.alreadyExists l.id)
  else .ok { st with labels := st.labels ++ [l] }

/-- `UpsertLabel` (postgres.go 416-437). -/
def UpsertLabel (st : Store) (l : LabelModel) : Except DBError Store :=
  if hasLabel st l.id then
    if l.name = "" then .error .validation
    else .ok { st with
      labels := st.labels.map (fun r => if r.id == l.id then l else r) }
  else CreateLabel st l

/-- `CreateMilestone` (postgres.go 440-459): sets `due_on` only when the
input carries it (a fresh row's column is NULL otherwise); `title` has a
`NotEmpty` validator. -/
def CreateMilestone (st : Store) (m : MilestoneModel) : Except DBError Store :=
  if m.title = "" then .error .validation
  else if hasMilestone st m.id then .error (.alreadyExists m.id)
  else .ok { st with milestones := st.milestones ++ [m] }

/-- `UpsertMilestone` (postgres.go 475-503): lookup; `NotFound` → create;
present → update all mutable fields, and `SetDueOn`/`ClearDueOn` based on
presence/absence of `DueOn` in the input (`created_at` is immutable). -/
def UpsertMilestone (st : Store) (m : MilestoneModel) : Except DBError Store :=
  if hasMilestone st m.id then
    if m.title = "" then .error .validation
    else .ok { st with
      milestones := st.milestones.map (fun r =>
        if r.id == m.id then
          { r with number := m.number, title := m.title,
                   description := m.description, state := m.state,
                   dueOn := m.dueOn, updatedAt := m.updatedAt }
        else r) }
  else CreateMilestone st m

/-- Modelled from the spec: the `RepoDAO.UpsertRepository` implementation is
not among the given source files (only its interface declaration in dao.go
and its caller `SyncRepository` are), so it is taken from the spec contract
"upsert(entity) → create-or-replace-in-place; never fails on existence
conflict" with the upsert-by-lookup pattern of §4.3. -/
def UpsertRepository (st : Store) (r : RepositoryModel) : Store :=
  if st.repos.any (fun x => x.id == r.id) then
    { st with repos := st.repos.map (fun x => if x.id == r.id then r else x) }
  else
    { st with repos := st.repos ++ [r] }

/-- Fault-injection oracle for one adapter call: transient outcomes of the
creator-user existence query and the milestone existence query (per issue
index inside a batch), and of the final commit.  `none` everywhere means
the queries answer from the store and the commit succeeds. -/
structure Faults where
  userQ : Nat → Option DBError
  mileQ : Nat → Option DBError
  commit : Option DBError

/-- The fault-free oracle. -/
def noFaults : Faults := ⟨fun _ => none, fun _ => none, none⟩

/-- The issue row written by `tx.Issue.Create()` in `CreateIssue` /
`BatchCreateIssues` (postgres.go 81-103 and 162-184): scalars are always
set, `closed_at` only when present in the input, `user_id` whenever the
input id is non-zero, and `milestone_id` only when the input carries it
*and* the existence check succeeded. -/
def issueRowOf (m : IssueModel) (milestoneExists : Bool) : IssueRow :=
  { id := m.id, number := m.number, title := m.title, body := m.body,
    state := m.state, comments := m.comments, htmlURL := m.htmlURL,
    locked := m.locked, createdAt := m.createdAt, updatedAt := m.updatedAt,
    closedAt := m.closedAt,
    userID := if m.userID ≠ 0 then some m.userID else none,
    milestoneID :=
      match m.milestoneID with
      | some mid => if milestoneExists then some mid else none
      | none => none }

/-- The effect of one `creator.Save(ctx)` inside the transaction: ent first
runs field validators (`title` is `NotEmpty`), then the INSERT must satisfy
the primary-key uniqueness and every foreign key — the `user_id` column,
and each label/assignee join row — or the whole `Save` errors. -/
def saveIssue (tx : Store) (m : IssueModel) (milestoneExists : Bool) :
    Except DBError Store :=
  if m.title = "" then .error .validation
  else if hasIssue tx m.id then .error (.alreadyExists m.id)
  else if m.userID ≠ 0 && !hasUser tx m.userID then .error .fkViolation
  else if !(m.labels.all (fun lid => hasLabel tx lid)) then .error .fkViolation
  else if !(m.assignees.all (fun aid => hasUser tx aid)) then .error .fkViolation
  else .ok { tx with
    issues := tx.issues ++ [issueRowOf m milestoneExists],
    issueLabels := tx.issueLabels ++ m.labels.map (fun lid => (m.id, lid)),
    issueAssignees := tx.issueAssignees ++ m.assignees.map (fun aid => (m.id, aid)) }

/-- The per-issue body shared verbatim by `CreateIssue` (postgres.go 60-118)
and the loop of `BatchCreateIssues` (postgres.go 141-198):

1. if `UserID != 0`, query the user by id; the result is bound to `err`
   but the only use is the vacuous `if err != nil && ent.IsNotFound(err) {}`
   — the outcome is discarded and execution continues on every branch;
2. if `MilestoneID` is present and non-zero, query the milestone:
   success → `milestoneExists = true`; `NotFound` → false; any other
   error → `tx.Rollback()` and return the error;
3. build and `Save` the issue row; on error → `tx.Rollback()` and return. -/
def issueStepGo (uq mq : Option DBError) (tx : Store) (m : IssueModel) :
    Except DBError Store :=
  let _userQueryResult : Except DBError Unit :=
    if m.userID ≠ 0 then
      match uq with
      | some e => .error e
      | none => if hasUser tx m.userID then .ok () else .error .notFound
    else .ok ()
  let milestoneQuery : Except DBError Bool :=
    match m.milestoneID with
    | none => .ok false
    | some mid =>
      if mid = 0 then .ok false
      else
        match mq with
        | some e => if e = .notFound then .ok false else .error e
        | none => .ok (hasMilestone tx mid)
  match milestoneQuery with
  | .error e => .error e
  | .ok milestoneExists => saveIssue tx m milestoneExists

/-- The issue loop of `BatchCreateIssues` (postgres.go 141-198), threading
the transaction snapshot; any error aborts the loop (the Go code calls
`tx.Rollback()` on every error path before returning). -/
def batchLoopGo (f : Faults) (idx : Nat) (tx : Store) :
    List IssueModel → Except DBError Store
  | [] => .ok tx
  | m :: rest =>
    match issueStepGo (f.userQ idx) (f.mileQ idx) tx m with
    | .error e => .error e
    | .ok tx2 => batchLoopGo f (idx + 1) tx2 rest

/-- `BatchCreateIssues` (postgres.go 128-205): open a transaction, run the
per-issue loop, commit.  Rollback (any loop error) and a failed commit both
leave the caller-visible store unchanged. -/
def BatchCreateIssues (f : Faults) (db : Store) (issues : List IssueModel) :
    Store × Option DBError :=
  match batchLoopGo f 0 db issues with
  | .error e => (db, some e)
  | .ok tx =>
    match f.commit with
    | some e => (db, some e)
    | none => (tx, none)

/-- `CreateIssue` (postgres.go 47-125): the single-issue transaction; its
body is line-for-line the per-issue body of `BatchCreateIssues`. -/
def CreateIssue (uq mq cq : Option DBError) (db : Store) (m : IssueModel) :
    Store × Option DBError :=
  match issueStepGo uq mq db m with
  | .error e => (db, some e)
  | .ok tx =>
    match cq with
    | some e => (db, some e)
    | none => (tx, none)

/-- `UpdateIssue` (postgres.go 281-313): `UpdateOneID` — `NotFound` if the
id is absent; scalar fields overwritten; `SetClosedAt`/`ClearClosedAt` and
`SetMilestoneID`/`ClearMilestoneID` from presence/absence in the input;
`user_id` set only when non-zero (never cleared); `created_at` immutable;
labels/assignees joins untouched.  A set `milestone_id`/`user_id` must
satisfy its FK constraint at save. -/
def UpdateIssue (st : Store) (m : IssueModel) : Except DBError Store :=
  if !hasIssue st m.id then .error .notFound
  else if m.title = "" then .error .validation
  else if m.userID ≠ 0 && !hasUser st m.userID then .error .fkViolation
  else if (match m.milestoneID with
           | some mid => !hasMilestone st mid
           | none => false) then .error .fkViolation
  else .ok { st with
    issues := st.issues.map (fun r =>
      if r.id == m.id then
        { r with number := m.number, title := m.title, body := m.body,
                 state := m.state, comments := m.comments,
                 htmlURL := m.htmlURL, locked := m.locked,
                 updatedAt := m.updatedAt,
                 closedAt := m.closedAt,
                 userID := if m.userID ≠ 0 then some m.userID else r.userID,
                 milestoneID := m.milestoneID }
      else r) }

/-- `dao.ListOptions` (dao.go). -/
structure ListOptions where
  offset : Int
  limit : Int
  state : String
deriving Repr, DecidableEq

/-- `entIssueToModel` (postgres.go 507-545): a stored row plus its eagerly
loaded label/assignee edges, converted back to an `IssueModel`. -/
def entIssueToModel (st : Store) (r : IssueRow) : IssueModel :=
  { id := r.id, number := r.number, title := r.title, body := r.body,
    state := r.state, comments := r.comments, htmlURL := r.htmlURL,
    locked := r.locked, createdAt := r.createdAt, updatedAt := r.updatedAt,
    closedAt := r.closedAt,
    userID := r.userID.getD 0,
    milestoneID := r.milestoneID,
    labels := (st.issueLabels.filter (fun p => p.1 == r.id)).map (fun p => p.2),
    assignees := (st.issueAssignees.filter (fun p => p.1 == r.id)).map (fun p => p.2) }

/-- The rows matching the optional state filter of `ListIssues`
(postgres.go 255-257): the Where clause is added only when the state option
is neither empty nor "all". -/
def matchingRows (st : Store) (s : String) : List IssueRow :=
  if s ≠ "" && s ≠ "all" then st.issues.filter (fun r => r.state == s)
  else st.issues

/-- The rows `ListIssues` selects before conversion: the state filter, then
`OFFSET` when positive, then `LIMIT` when positive (postgres.go 248-266;
SQL applies the offset before the limit). -/
def listIssuesRows (st : Store) (opts : ListOptions) : List IssueRow :=
  let filtered := matchingRows st opts.state
  let offsetApplied :=
    if opts.offset > 0 then filtered.drop opts.offset.toNat else filtered
  if opts.limit > 0 then offsetApplied.take opts.limit.toNat else offsetApplied

/-- `ListIssues` (postgres.go 248-278). -/
def ListIssues (st : Store) (opts : ListOptions) : List IssueModel :=
  (listIssuesRows st opts).map (entIssueToModel st)

/-! ## The GitHub ingestion service (github.go)

Raw remote records, as surfaced by the go-github client: every field is a
pointer, and the generated `GetX()` accessors return the zero value when
the pointer is nil.  `Option` models the pointer; `Option.getD` models the
accessor. -/

/-- `github.User` as consumed by the converters. -/
structure GHUser where
  id : Option Int
  login : Option String
  avatarURL : Option String
  htmlURL : Option String
deriving Repr, DecidableEq

/-- `github.Label` as consumed by the converters. -/
structure GHLabel where
  id : Option Int
  name : Option String
  color : Option String
  description : Option String
deriving Repr, DecidableEq

/-- `github.Milestone` as consumed by the converters. -/
structure GHMilestone where
  id : Option Int
  number : Option Int
  title : Option String
  description : Option String
  state : Option String
  dueOn : Option Int
  createdAt : Option Int
  updatedAt : Option Int
deriving Repr, DecidableEq

/-- `github.Issue` as consumed by the converters. -/
structure GHIssue where
  id : Option Int
  number : Option Int
  title : Option String
  body : Option String
  state : Option String
  comments : Option Int
  htmlURL : Option String
  locked : Option Bool
  createdAt : Option Int
  updatedAt : Option Int
  closedAt : Option Int
  user : Option GHUser
  milestone : Option GHMilestone
  labels : List GHLabel
  assignees : List GHUser
deriving Repr, DecidableEq

/-- `github.Repository` as consumed by `convertGitHubRepositoryToModel`. -/
structure GHRepository where
  id : Option Int
  name : Option String
  fullName : Option String
  owner : Option GHUser
  description : Option String
  private_ : Option Bool
  archived : Option Bool
  disabled : Option Bool
  htmlURL : Option String
  defaultBranch : Option String
  language : Option String
  stargazersCount : Option Int
  forksCount : Option Int
  openIssuesCount : Option Int
  createdAt : Option Int
  updatedAt : Option Int
  pushedAt : Option Int
deriving Repr, DecidableEq

/-- `convertGitHubUserToModel` (github.go 264-271). -/
def convertGitHubUserToModel (u : GHUser) : UserModel :=
  { id := u.id.getD 0, login := u.login.getD "",
    avatarURL := u.avatarURL.getD "", htmlURL := u.htmlURL.getD "" }

/-- `convertGitHubLabelToModel` (github.go 274-281). -/
def convertGitHubLabelToModel (l : GHLabel) : LabelModel :=
  { id := l.id.getD 0, name := l.name.getD "",
    color := l.color.getD "", description := l.description.getD "" }

/-- `convertGitHubMilestoneToModel` (github.go 284-302). -/
def convertGitHubMilestoneToModel (m : GHMilestone) : MilestoneModel :=
  { id := m.id.getD 0, number := m.number.getD 0, title := m.title.getD "",
    description := m.description.getD "", state := m.state.getD "",
    dueOn := m.dueOn,
    createdAt := m.createdAt.getD 0, updatedAt := m.updatedAt.getD 0 }

/-- `convertGitHubIssueToModel` (github.go 172-220). -/
def convertGitHubIssueToModel (g : GHIssue) : IssueModel :=
  { id := g.id.getD 0, number := g.number.getD 0, title := g.title.getD "",
    body := g.body.getD "", state := g.state.getD "",
    comments := g.comments.getD 0, htmlURL := g.htmlURL.getD "",
    locked := g.locked.getD false,
    createdAt := g.createdAt.getD 0, updatedAt := g.updatedAt.getD 0,
    closedAt := g.closedAt,
    userID := match g.user with | some u => u.id.getD 0 | none => 0,
    milestoneID := g.milestone.map (fun m => m.id.getD 0),
    labels := g.labels.map (fun l => l.id.getD 0),
    assignees := g.assignees.map (fun a => a.id.getD 0) }

/-- `convertGitHubRepositoryToModel` (github.go 223-261): straight field
conversion, then the full name is derived from `owner/name` when absent
(and both parts are non-empty), and the default branch falls back to
"main" when absent. -/
def convertGitHubRepositoryToModel (r : GHRepository) : RepositoryModel :=
  let ownerLogin := match r.owner with | some o => o.login.getD "" | none => ""
  let base : RepositoryModel :=
    { id := r.id.getD 0, name := r.name.getD "",
      fullName := r.fullName.getD "", ownerLogin := ownerLogin,
      description := r.description.getD "",
      private_ := r.private_.getD false, archived := r.archived.getD false,
      disabled := r.disabled.getD false, htmlURL := r.htmlURL.getD "",
      defaultBranch := r.defaultBranch.getD "",
      language := r.language.getD "",
      stargazersCount := r.stargazersCount.getD 0,
      forksCount := r.forksCount.getD 0,
      openIssuesCount := r.openIssuesCount.getD 0,
      createdAt := r.createdAt.getD 0, updatedAt := r.updatedAt.getD 0,
      pushedAt := r.pushedAt }
  let withFullName :=
    if base.fullName = "" && base.ownerLogin ≠ "" && base.name ≠ "" then
      { base with fullName := base.ownerLogin ++ "/" ++ base.name }
    else base
  if withFullName.defaultBranch = "" then
    { withFullName with defaultBranch := "main" }
  else withFullName

/-- Early-return sequencing of store operations, as in the Go code's
`if err != nil { return ... }` after each upsert: an error short-circuits
with the store accumulated so far. -/
def andThenSt (x : Store × Option DBError) (f : Store → Store × Option DBError) :
    Store × Option DBError :=
  match x with
  | (db, some e) => (db, some e)
  | (db, none) => f db

/-- An adapter call used as one step of `persistIssues`: each upsert
commits independently, so on error the store keeps the upserts made so
far. -/
def liftE (db : Store) (x : Except DBError Store) : Store × Option DBError :=
  match x with
  | .error e => (db, some e)
  | .ok db2 => (db2, none)

/-- The creator upsert of `persistIssues` (github.go 99-104). -/
def upsertCreator (db : Store) (ou : Option GHUser) : Store × Option DBError :=
  match ou with
  | some u => liftE db (UpsertUser db (convertGitHubUserToModel u))
  | none => (db, none)

/-- The assignee-upsert loop of `persistIssues` (github.go 107-112). -/
def upsertAssignees (db : Store) : List GHUser → Store × Option DBError
  | [] => (db, none)
  | a :: rest =>
    andThenSt (liftE db (UpsertUser db (convertGitHubUserToModel a)))
      (fun db2 => upsertAssignees db2 rest)

/-- The label-upsert loop of `persistIssues` (github.go 115-120). -/
def upsertLabels (db : Store) : List GHLabel → Store × Option DBError
  | [] => (db, none)
  | l :: rest =>
    andThenSt (liftE db (UpsertLabel db (convertGitHubLabelToModel l)))
      (fun db2 => upsertLabels db2 rest)

/-- The milestone upsert of `persistIssues` (github.go 123-128). -/
def upsertMilestoneOpt (db : Store) (om : Option GHMilestone) : Store × Option DBError :=
  match om with
  | some mi => liftE db (UpsertMilestone db (convertGitHubMilestoneToModel mi))
  | none => (db, none)

/-- The supporting-entity pass of `persistIssues` (github.go 97-129): for
each raw issue, upsert its creator, its assignees, its labels, and its
milestone when present; the first error aborts the pass. -/
def upsertSupportingEntities (db : Store) : List GHIssue → Store × Option DBError
  | [] => (db, none)
  | g :: rest =>
    andThenSt (upsertCreator db g.user) (fun db1 =>
    andThenSt (upsertAssignees db1 g.assignees) (fun db2 =>
    andThenSt (upsertLabels db2 g.labels) (fun db3 =>
    andThenSt (upsertMilestoneOpt db3 g.milestone) (fun db4 =>
    upsertSupportingEntities db4 rest))))

/-- `persistIssues` (github.go 95-139): upsert every supporting entity,
convert the raw issues, then `BatchCreateIssues` in one transaction.  The
supporting upserts are committed independently of the batch, so a batch
failure keeps them while the issue rows of this page roll back. -/
def persistIssues (db : Store) (ghIssues : List GHIssue) : Store × Option DBError :=
  match upsertSupportingEntities db ghIssues with
  | (db2, some e) => (db2, some e)
  | (db2, none) =>
    BatchCreateIssues noFaults db2 (ghIssues.map convertGitHubIssueToModel)

/-- The remote collaborator consumed by the ingestion service: the
repository-metadata fetch and the paged issue list
(`cursor ↦ (page of raw issues, next-page token)`); either fetch may fail. -/
structure Remote where
  repo : Except Unit GHRepository
  pages : Nat → Except Unit (List GHIssue × Nat)

/-- Errors surfaced by `FetchAndStoreAllIssues`; fetch and persist failures
carry the page cursor at which they occurred, exactly as the Go code wraps
them with "(page %d)" using `opts.ListOptions.Page`. -/
inductive SyncErr where
  | repoSyncFailed : SyncErr
  | fetchFailed : Nat → SyncErr
  | persistFailed : Nat → DBError → SyncErr
  | fuelExhausted : SyncErr
deriving Repr, DecidableEq

/-- Result of a sync run: the final store, the number of issue-list fetch
calls performed, and the outcome (`none` = success). -/
structure SyncOut where
  db : Store
  calls : Nat
  res : Option SyncErr
deriving Repr, DecidableEq

/-- The pagination loop of `FetchAndStoreAllIssues` (github.go 59-80):
fetch a page at the current cursor (the cursor starts at the Go zero value
0); a fetch error aborts with the cursor attached; an empty page ends the
loop; otherwise persist the page (a persist error aborts with the cursor
attached, keeping earlier pages); a zero next-page token ends the loop;
otherwise continue at the token.  `fuel` bounds the unrolling of the
unbounded Go `for`. -/
def fetchLoop (r : Remote) (fuel : Nat) (db : Store) (page : Nat) (calls : Nat) :
    SyncOut :=
  match fuel with
  | 0 => ⟨db, calls, some .fuelExhausted⟩
  | fuel + 1 =>
    match r.pages page with
    | .error _ => ⟨db, calls + 1, some (.fetchFailed page)⟩
    | .ok (issues, next) =>
      if issues.isEmpty then ⟨db, calls + 1, none⟩
      else
        match persistIssues db issues with
        | (db2, some e) => ⟨db2, calls + 1, some (.persistFailed page e)⟩
        | (db2, none) =>
          if next = 0 then ⟨db2, calls + 1, none⟩
          else fetchLoop r fuel db2 next (calls + 1)

/-- `SyncRepository` (github.go 86-92): fetch the repository record and
upsert it; fatal on fetch failure. -/
def SyncRepository (r : Remote) (db : Store) : Except SyncErr Store :=
  match r.repo with
  | .error _ => .error .repoSyncFailed
  | .ok gr => .ok (UpsertRepository db (convertGitHubRepositoryToModel gr))

/-- `FetchAndStoreAllIssues` (github.go 46-83): sync the repository
metadata first (fatal on failure), then run the pagination loop from
cursor 0. -/
def FetchAndStoreAllIssues (r : Remote) (fuel : Nat) (db : Store) : SyncOut :=
  match SyncRepository r db with
  | .error e => ⟨db, 0, some e⟩
  | .ok db1 => fetchLoop r fuel db1 0 0

/-! ## Concrete fixtures used by counterexamples and witnesses -/

/-- A minimal well-formed issue record: id 1, number 1, open, no creator,
no milestone, no links. -/
def issueA : IssueModel :=
  { id := 1, number := 1, title := "a", body := "", state := "open",
    comments := 0, htmlURL := "", locked := false, createdAt := 0,
    updatedAt := 0, closedAt := none, userID := 0, milestoneID := none,
    labels := [], assignees := [] }

/-- `issueA` with a creator id (7) that refers to no stored user. -/
def issueU7 : IssueModel := { issueA with userID := 7 }

/-- `issueA` with a milestone reference (5). -/
def issueM5 : IssueModel := { issueA with milestoneID := some 5 }

/-- Milestone 5. -/
def milestone5 : MilestoneModel :=
  { id := 5, number := 1, title := "m", description := "", state := "open",
    dueOn := none, createdAt := 0, updatedAt := 0 }

/-- The raw remote form of `issueA`. -/
def ghIssueA : GHIssue :=
  { id := some 1, number := some 1, title := some "a", body := none,
    state := some "open", comments := none, htmlURL := none, locked := none,
    createdAt := none, updatedAt := none, closedAt := none, user := none,
    milestone := none, labels := [], assignees := [] }

/-- A raw remote repository record with every field absent. -/
def ghRepoEmpty : GHRepository :=
  { id := none, name := none, fullName := none, owner := none,
    description := none, private_ := none, archived := none,
    disabled := none, htmlURL := none, defaultBranch := none,
    language := none, stargazersCount := none, forksCount := none,
    openIssuesCount := none, createdAt := none, updatedAt := none,
    pushedAt := none }

/-- A remote whose unchanged state is a single one-issue page: page 0 holds
`ghIssueA` with no next page; any other cursor yields an empty page. -/
def remoteOneIssue : Remote :=
  { repo := .ok ghRepoEmpty,
    pages := fun p => if p = 0 then .ok ([ghIssueA], 0) else .ok ([], 0) }

/-- A stored issue row for id 1 whose `closed_at` column is set (10). -/
def rowClosed : IssueRow :=
  { id := 1, number := 1, title := "a", body := "", state := "closed",
    comments := 0, htmlURL := "", locked := false, createdAt := 0,
    updatedAt := 0, closedAt := some 10, userID := none, milestoneID := none }

/-- A store holding only the closed issue row `rowClosed`. -/
def stClosed : Store := ⟨[], [], [], [rowClosed], [], [], []⟩

/-- The store after the first (successful) batch write of `issueM5` into an
empty database. -/
def c5Store1 : Store := (BatchCreateIssues noFaults Store.empty [issueM5]).1

/-- `c5Store1` after upserting milestone 5 (the out-of-order milestone now
arriving). -/
def c5Store2 : Store := ((UpsertMilestone c5Store1 milestone5).toOption).getD Store.empty

/-! ## Claim theorems -/

/-- A store holding only user 7. -/
def stUser7 : Store := ⟨[⟨7, "u", "", ""⟩], [], [], [], [], [], []⟩

/-- An open row (id 1) and a closed row (id 2). -/
def rowOpen1 : IssueRow :=
  { id := 1, number := 1, title := "a", body := "", state := "open",
    comments := 0, htmlURL := "", locked := false, createdAt := 0,
    updatedAt := 0, closedAt := none, userID := none, milestoneID := none }

/-- A second, closed row. -/
def rowClosed2 : IssueRow := { rowOpen1 with id := 2, number := 2, state := "closed" }

/-- A two-row store for the pagination witness. -/
def stTwo : Store := ⟨[], [], [], [rowOpen1, rowClosed2], [], [], []⟩

/-- A remote repository record with owner, name, full name and default
branch all present. -/
def ghRepoFull : GHRepository :=
  { ghRepoEmpty with name := some "n", fullName := some "o/n",
                     owner := some ⟨some 9, some "o", none, none⟩,
                     defaultBranch := some "dev" }

/-- A remote repository record with owner and name present but no full
name and no default branch. -/
def ghRepoDerive : GHRepository :=
  { ghRepoEmpty with name := some "n",
                     owner := some ⟨some 9, some "o", none, none⟩ }

/-- "Durably stored with its association links": the store holds a row with
the issue's scalar contents, and a label/assignee join row for each link of
the input. -/
def issueStored (st : Store) (m : IssueModel) : Prop :=
  (∃ r ∈ st.issues, r.id = m.id ∧ r.number = m.number ∧ r.title = m.title ∧
    r.state = m.state ∧ r.closedAt = m.closedAt) ∧
  (∀ lid ∈ m.labels, (m.id, lid) ∈ st.issueLabels) ∧
  (∀ aid ∈ m.assignees, (m.id, aid) ∈ st.issueAssignees)

/-- A store holding user 7 and label 3, ready to satisfy the FK constraints
of an issue linking both. -/
def stSupport : Store := ⟨[⟨7, "u", "", ""⟩], [⟨3, "bug", "", ""⟩], [], [], [], [], []⟩

/-- An issue by creator 7 carrying label 3 and assignee 7. -/
def issueL : IssueModel := { issueA with userID := 7, labels := [3], assignees := [7] }

/-- An issue violating the `title` `NotEmpty` validator — an engineered
persistence failure. -/
def issueBad : IssueModel := { issueA with id := 2, title := "" }

/-- A store where issue 1 has `closed_at` 10 and milestone 5 set, and
milestone 5 has `due_on` 20. -/
def stC3 : Store :=
  ⟨[], [], [⟨5, 1, "old", "", "open", some 20, 0, 0⟩],
   [{ rowClosed with milestoneID := some 5 }], [], [], []⟩

/-- The store after updating issue 1 with `issueA` (which omits both
`closedAt` and `milestoneID`). -/
def stC3U : Store := ((UpdateIssue stC3 issueA).toOption).getD Store.empty

/-- The store after upserting milestone 5 with `milestone5` (which omits
`dueOn`). -/
def stC3M : Store := ((UpsertMilestone stC3 milestone5).toOption).getD Store.empty

/-- The updated issue row. -/
def rowCleared : IssueRow := stC3U.issues.getD 0 rowClosed

/-- The updated milestone row. -/
def msCleared : MilestoneModel := stC3M.milestones.getD 0 milestone5

/-- A remote whose issue-list endpoint always fails. -/
def remoteFetchErr : Remote := { repo := .ok ghRepoEmpty, pages := fun _ => .error () }

/-- Outcome shape of the supporting-entity pass from `db` to `st2`: every
user/label/milestone id answered before is still answered, and the issue
table is untouched. -/
def supportOutcome (db st2 : Store) : Prop :=
  (∀ x, hasUser db x = true → hasUser st2 x = true) ∧
  (∀ x, hasLabel db x = true → hasLabel st2 x = true) ∧
  (∀ x, hasMilestone db x = true → hasMilestone st2 x = true) ∧
  st2.issues = db.issues

/-- All the rows a raw issue's supporting entities will need are present
in `st2`. -/
def pageEntitiesPresent (st2 : Store) (g : GHIssue) : Prop :=
  (∀ u, g.user = some u → hasUser st2 (u.id.getD 0) = true) ∧
  (∀ a ∈ g.assignees, hasUser st2 (a.id.getD 0) = true) ∧
  (∀ l ∈ g.labels, hasLabel st2 (l.id.getD 0) = true) ∧
  (∀ mi, g.milestone = some mi → hasMilestone st2 (mi.id.getD 0) = true)

/-- The validator-relevant well-formedness of a raw issue: its own title
and the login/name/title of every nested record are non-empty, so that no
`NotEmpty` validator fires while persisting it. -/
def ghIssueWellFormed (g : GHIssue) : Bool :=
  (g.title.getD "" != "") &&
  (match g.user with | some u => u.login.getD "" != "" | none => true) &&
  g.assignees.all (fun u => u.login.getD "" != "") &&
  g.labels.all (fun l => l.name.getD "" != "") &&
  (match g.milestone with | some mi => mi.title.getD "" != "" | none => true)

/-- A well-formed raw issue with the given id. -/
def ghIssueN (i : Int) : GHIssue := { ghIssueA with id := some i, number := some i }

/-- A fake remote returning three pages of two issues (tokens 2, 3, 4) and
then an empty page. -/
def remoteSix : Remote :=
  { repo := .ok ghRepoEmpty,
    pages := fun p =>
      if p = 0 then .ok ([ghIssueN 1, ghIssueN 2], 2)
      else if p = 2 then .ok ([ghIssueN 3, ghIssueN 4], 3)
      else if p = 3 then .ok ([ghIssueN 5, ghIssueN 6], 4)
      else .ok ([], 0) }

/-! ## Lemmas and claim theorems -/

/-- Claim C1 (the code at the failing input): the batch issue write is a
plain INSERT, not an upsert.  The first batch write of `issueA` into an
empty store succeeds, but re-running the identical batch against the
resulting store fails on the existence conflict with the already-stored id
1 and changes nothing; likewise, re-running `FetchAndStoreAllIssues`
against an unchanged one-page remote fails with a persist error on page 0
instead of succeeding idempotently. -/
theorem c1_batch_write_fails_on_existing_id :
    (BatchCreateIssues noFaults Store.empty [issueA]).2 = none ∧
    BatchCreateIssues noFaults (BatchCreateIssues noFaults Store.empty [issueA]).1 [issueA]
      = ((BatchCreateIssues noFaults Store.empty [issueA]).1, some (.alreadyExists 1)) ∧
    (FetchAndStoreAllIssues remoteOneIssue 2 Store.empty).res = none ∧
    (FetchAndStoreAllIssues remoteOneIssue 2
        (FetchAndStoreAllIssues remoteOneIssue 2 Store.empty).db).res
      = some (.persistFailed 0 (.alreadyExists 1)) := by
  refine ⟨rfl, rfl, rfl, ?_⟩
  rfl

/-- Claim C3 counterexample: writing, via the batch issue write path, an
issue (id 1) that previously had `closed_at` set while now omitting it does
not clear the stored value — the write fails on the existence conflict and
the stored `closed_at` is still 10 afterwards. -/
theorem c3_batch_write_does_not_clear_closed_at :
    BatchCreateIssues noFaults stClosed [issueA] = (stClosed, some (.alreadyExists 1)) ∧
    (BatchCreateIssues noFaults stClosed [issueA]).1.issues.map IssueRow.closedAt
      = [some 10] := by
  exact ⟨rfl, rfl⟩

/-- Claim C4 (the code at the failing input): an issue whose creator id (7)
refers to a user that was never stored makes both `CreateIssue` and
`BatchCreateIssues` fail — the creator existence check is performed but its
outcome is discarded, the `user_id` column is set from the input anyway,
and the insert violates the user foreign key, so the missing creator blocks
the issue write instead of being tolerated. -/
theorem c4_missing_creator_fails_issue_write :
    CreateIssue none none none Store.empty issueU7 = (Store.empty, some .fkViolation) ∧
    BatchCreateIssues noFaults Store.empty [issueU7]
      = (Store.empty, some .fkViolation) := by
  exact ⟨rfl, rfl⟩

/-- Claim C5 counterexample: issue 1 is first written with a reference to
the never-upserted milestone 5 (stored without the link), then milestone 5
is upserted; re-writing the same issue with the milestone id present does
not attach the link — the batch write fails on the existence conflict and
the stored row still has no milestone. -/
theorem c5_later_write_does_not_attach_milestone_link :
    (BatchCreateIssues noFaults Store.empty [issueM5]).2 = none ∧
    c5Store1.issues.map IssueRow.milestoneID = [none] ∧
    hasMilestone c5Store2 5 = true ∧
    BatchCreateIssues noFaults c5Store2 [issueM5] = (c5Store2, some (.alreadyExists 1)) ∧
    c5Store2.issues.map IssueRow.milestoneID = [none] := by
  exact ⟨rfl, rfl, rfl, rfl, rfl⟩

/-! ## Helper lemmas -/

/-- A store whose issue table has no row with id `x` contains no such row. -/
lemma hasIssue_false_forall (st : Store) (x : Int) (h : hasIssue st x = false) :
    ∀ r ∈ st.issues, r.id ≠ x := by
  intro r hr he
  have ht : hasIssue st x = true := by
    unfold hasIssue
    exact List.any_eq_true.2 ⟨r, hr, by simp [he]⟩
  simp [h] at ht

/-- A store with no milestone row of id `x` contains no such row. -/
lemma hasMilestone_false_forall (st : Store) (x : Int) (h : hasMilestone st x = false) :
    ∀ r ∈ st.milestones, r.id ≠ x := by
  intro r hr he
  have ht : hasMilestone st x = true := by
    unfold hasMilestone
    exact List.any_eq_true.2 ⟨r, hr, by simp [he]⟩
  simp [h] at ht

/-- Shape of a successful `Save`: the transaction gains exactly the one
issue row and its join rows, and the preconditions of the insert held. -/
lemma saveIssue_ok {tx tx2 : Store} {m : IssueModel} {b : Bool}
    (h : saveIssue tx m b = .ok tx2) :
    tx2 = { tx with
      issues := tx.issues ++ [issueRowOf m b],
      issueLabels := tx.issueLabels ++ m.labels.map (fun lid => (m.id, lid)),
      issueAssignees := tx.issueAssignees ++ m.assignees.map (fun aid => (m.id, aid)) }
    ∧ m.title ≠ "" ∧ hasIssue tx m.id = false := by
  unfold saveIssue at h
  split_ifs at h with h1 h2 h3 h4 h5
  all_goals first
    | exact absurd h (fun hc => Except.noConfusion hc)
    | (cases h; exact ⟨rfl, h1, by simpa using h2⟩)

/-- A successful per-issue step is a successful `Save` for some outcome of
the milestone existence check. -/
lemma issueStepGo_ok_saveIssue {uq mq : Option DBError} {tx tx2 : Store}
    {m : IssueModel} (h : issueStepGo uq mq tx m = .ok tx2) :
    ∃ b, saveIssue tx m b = .ok tx2 := by
  unfold issueStepGo at h
  simp only [] at h
  split at h
  · exact absurd h (fun hc => Except.noConfusion hc)
  · exact ⟨_, h⟩

/-- The discarded creator-user query: the per-issue step does not depend on
its outcome. -/
lemma issueStepGo_userq (u1 u2 mq : Option DBError) (tx : Store) (m : IssueModel) :
    issueStepGo u1 mq tx m = issueStepGo u2 mq tx m := rfl

/-- The batch loop does not depend on the creator-user query oracle. -/
lemma batchLoopGo_userq (u1 u2 mq : Nat → Option DBError) (cq : Option DBError)
    (ms : List IssueModel) (idx : Nat) (tx : Store) :
    batchLoopGo ⟨u1, mq, cq⟩ idx tx ms = batchLoopGo ⟨u2, mq, cq⟩ idx tx ms := by
  induction ms generalizing idx tx with
  | nil => rfl
  | cons m rest ih =>
    simp only [batchLoopGo]
    have h1 : issueStepGo (u1 idx) (mq idx) tx m = issueStepGo (u2 idx) (mq idx) tx m := rfl
    rw [h1]
    cases issueStepGo (u2 idx) (mq idx) tx m with
    | error e => rfl
    | ok tx2 => exact ih (idx + 1) tx2

/-- Claim C10: in `CreateIssue` and `BatchCreateIssues` the result of the
creator-user existence query is never used by any later step — for every
injected outcome of that query (including database errors other than
not-found) the two operations return the same store and the same reported
error as the fault-free run, so such an error is silently discarded, rolls
nothing back and is not reported; and on success the `user_id` column of
the written row is set from the input whenever it is non-zero, regardless
of the query's outcome. -/
theorem c10_creator_query_result_unused :
    (∀ (u1 u2 mq : Nat → Option DBError) (cq : Option DBError)
       (db : Store) (issues : List IssueModel),
       BatchCreateIssues ⟨u1, mq, cq⟩ db issues
         = BatchCreateIssues ⟨u2, mq, cq⟩ db issues) ∧
    (∀ (uq1 uq2 mq cq : Option DBError) (db : Store) (m : IssueModel),
       CreateIssue uq1 mq cq db m = CreateIssue uq2 mq cq db m) ∧
    (∀ (uq mq cq : Option DBError) (db st2 : Store) (m : IssueModel),
       CreateIssue uq mq cq db m = (st2, none) →
       ∀ r ∈ st2.issues, r.id = m.id →
         r.userID = if m.userID ≠ 0 then some m.userID else none) := by
  refine ⟨?_, ?_, ?_⟩
  · intro u1 u2 mq cq db issues
    unfold BatchCreateIssues
    rw [batchLoopGo_userq u1 u2 mq cq issues 0 db]
  · intro uq1 uq2 mq cq db m
    rfl
  · intro uq mq cq db st2 m h r hr hid
    unfold CreateIssue at h
    cases hs : issueStepGo uq mq db m with
    | error e => rw [hs] at h; simp at h
    | ok tx =>
      rw [hs] at h
      cases cq with
      | some e => simp at h
      | none =>
        have htx : tx = st2 := congrArg Prod.fst h
        obtain ⟨b, hsave⟩ := issueStepGo_ok_saveIssue hs
        obtain ⟨hshape, -, hfresh⟩ := saveIssue_ok hsave
        subst htx
        rw [hshape] at hr
        simp only [List.mem_append, List.mem_singleton] at hr
        rcases hr with hold | hnew
        · exact absurd hid (hasIssue_false_forall db m.id hfresh r hold)
        · subst hnew; rfl

/-- Witness for C10: with user 7 present and an injected transient error on
the creator query, `CreateIssue` behaves exactly as the fault-free run, and
the row written for `issueU7` carries `user_id = 7`. -/
theorem c10_creator_query_result_unused_witness :
    CreateIssue (some DBError.transient) none none stUser7 issueU7
      = CreateIssue none none none stUser7 issueU7 ∧
    (issueRowOf issueU7 false).userID
      = (if issueU7.userID ≠ 0 then some issueU7.userID else none) := by
  constructor
  · exact c10_creator_query_result_unused.2.1 (some DBError.transient) none none none stUser7 issueU7
  · exact c10_creator_query_result_unused.2.2 (some DBError.transient) none none stUser7
      (CreateIssue (some DBError.transient) none none stUser7 issueU7).1 issueU7
      (by rfl) (issueRowOf issueU7 false) (by decide) (by decide)

/-- Claim C8: `ListIssues` composes the optional state filter with
offset/limit pagination: `offset = 0, limit = 0` applies no pagination and
returns every matching row (converted with its eagerly resolved
associations); a positive limit bounds the number of results; a positive
offset skips that many matches before the (optional) limit is applied. -/
theorem c8_list_issues_pagination (st : Store) (s : String) (o l : Int) :
    ListIssues st ⟨0, 0, s⟩ = (matchingRows st s).map (entIssueToModel st) ∧
    (0 < l → (ListIssues st ⟨o, l, s⟩).length ≤ l.toNat) ∧
    (0 < o → ListIssues st ⟨o, l, s⟩
      = (if 0 < l then ((matchingRows st s).drop o.toNat).take l.toNat
         else (matchingRows st s).drop o.toNat).map (entIssueToModel st)) := by
  refine ⟨?_, ?_, ?_⟩
  · simp [ListIssues, listIssuesRows]
  · intro hl
    simp [ListIssues, listIssuesRows, hl, List.length_take]
  · intro ho
    by_cases hl : 0 < l <;>
      simp [ListIssues, listIssuesRows, ho, hl]

/-- Witness for C8: on a two-row store (one open, one closed row), listing
open issues with `offset = 0, limit = 0` returns the one open match, a
limit of 1 bounds the unfiltered listing to one result, and an offset of 1
skips the first row. -/
theorem c8_list_issues_pagination_witness :
    ListIssues stTwo ⟨0, 0, "open"⟩ = (matchingRows stTwo "open").map (entIssueToModel stTwo) ∧
    (ListIssues stTwo ⟨0, 1, ""⟩).length ≤ (1 : Int).toNat ∧
    ListIssues stTwo ⟨1, 0, ""⟩
      = (if (0 : Int) < 0 then ((matchingRows stTwo "").drop (1 : Int).toNat).take (0 : Int).toNat
         else (matchingRows stTwo "").drop (1 : Int).toNat).map (entIssueToModel stTwo) := by
  exact ⟨(c8_list_issues_pagination stTwo "open" 0 0).1,
         (c8_list_issues_pagination stTwo "" 0 1).2.1 (by decide),
         (c8_list_issues_pagination stTwo "" 1 0).2.2 (by decide)⟩

/-- Claim C9: normalizing a remote repository record derives the full name
as `owner/name` when it is absent from the record (and owner login and
name are available), defaults the default branch to the conventional
"main" when absent, and preserves both values unchanged when present. -/
theorem c9_repo_normalization_defaults (r : GHRepository) :
    (r.fullName.getD "" = "" →
      (match r.owner with | some o => o.login.getD "" | none => "") ≠ "" →
      r.name.getD "" ≠ "" →
      (convertGitHubRepositoryToModel r).fullName
        = (match r.owner with | some o => o.login.getD "" | none => "")
            ++ "/" ++ r.name.getD "") ∧
    (r.fullName.getD "" ≠ "" →
      (convertGitHubRepositoryToModel r).fullName = r.fullName.getD "") ∧
    (r.defaultBranch.getD "" = "" →
      (convertGitHubRepositoryToModel r).defaultBranch = "main") ∧
    (r.defaultBranch.getD "" ≠ "" →
      (convertGitHubRepositoryToModel r).defaultBranch = r.defaultBranch.getD "") := by
  refine ⟨?_, ?_, ?_, ?_⟩
  · intro h1 h2 h3
    simp [convertGitHubRepositoryToModel, h1, h2, h3]
    split <;> rfl
  · intro h1
    simp [convertGitHubRepositoryToModel, h1]
    split <;> rfl
  · intro h1
    simp [convertGitHubRepositoryToModel, h1]
    split <;> rfl
  · intro h1
    simp [convertGitHubRepositoryToModel, h1]
    split <;> rfl

/-- Witness for C9: the all-absent record gets default branch "main" (full
name stays empty since no owner is available), and a record with both
values present keeps them. -/
theorem c9_repo_normalization_defaults_witness :
    (convertGitHubRepositoryToModel ghRepoEmpty).defaultBranch = "main" ∧
    (convertGitHubRepositoryToModel ghRepoFull).fullName = "o/n" ∧
    (convertGitHubRepositoryToModel ghRepoFull).defaultBranch = "dev" ∧
    (convertGitHubRepositoryToModel ghRepoDerive).fullName = "o/n" := by
  refine ⟨(c9_repo_normalization_defaults ghRepoEmpty).2.2.1 (by decide), ?_, ?_, ?_⟩
  · exact (c9_repo_normalization_defaults ghRepoFull).2.1 (by decide)
  · exact (c9_repo_normalization_defaults ghRepoFull).2.2.2 (by decide)
  · exact (c9_repo_normalization_defaults ghRepoDerive).1 (by decide) (by decide) (by decide)

/-- Rows and join rows present in the transaction survive the rest of the
batch loop (each step only appends). -/
lemma batchLoopGo_ok_mono (f : Faults) (ms : List IssueModel) (idx : Nat)
    (tx tx2 : Store) (h : batchLoopGo f idx tx ms = .ok tx2) :
    (∀ r ∈ tx.issues, r ∈ tx2.issues) ∧
    (∀ p ∈ tx.issueLabels, p ∈ tx2.issueLabels) ∧
    (∀ p ∈ tx.issueAssignees, p ∈ tx2.issueAssignees) := by
  induction ms generalizing idx tx with
  | nil =>
    simp only [batchLoopGo] at h
    cases h
    exact ⟨fun _ hr => hr, fun _ hp => hp, fun _ hp => hp⟩
  | cons m rest ih =>
    simp only [batchLoopGo] at h
    cases hs : issueStepGo (f.userQ idx) (f.mileQ idx) tx m with
    | error e => rw [hs] at h; exact absurd h (fun hc => Except.noConfusion hc)
    | ok tx1 =>
      rw [hs] at h
      obtain ⟨b, hsave⟩ := issueStepGo_ok_saveIssue hs
      obtain ⟨hshape, -, -⟩ := saveIssue_ok hsave
      have ihm := ih (idx + 1) tx1 h
      subst hshape
      exact ⟨fun r hr => ihm.1 r (List.mem_append_left _ hr),
             fun p hp => ihm.2.1 p (List.mem_append_left _ hp),
             fun p hp => ihm.2.2 p (List.mem_append_left _ hp)⟩

/-- Every issue of a successfully finished batch loop is stored, with its
links, in the final transaction state. -/
lemma batchLoopGo_ok_stored (f : Faults) (ms : List IssueModel) (idx : Nat)
    (tx tx2 : Store) (h : batchLoopGo f idx tx ms = .ok tx2) :
    ∀ m ∈ ms, issueStored tx2 m := by
  induction ms generalizing idx tx with
  | nil => intro m hm; cases hm
  | cons m0 rest ih =>
    intro m hm
    simp only [batchLoopGo] at h
    cases hs : issueStepGo (f.userQ idx) (f.mileQ idx) tx m0 with
    | error e => rw [hs] at h; exact absurd h (fun hc => Except.noConfusion hc)
    | ok tx1 =>
      rw [hs] at h
      rcases List.mem_cons.1 hm with hm0 | hmrest
      · subst hm0
        obtain ⟨b, hsave⟩ := issueStepGo_ok_saveIssue hs
        obtain ⟨hshape, -, -⟩ := saveIssue_ok hsave
        have hmono := batchLoopGo_ok_mono f rest (idx + 1) tx1 tx2 h
        subst hshape
        refine ⟨⟨issueRowOf m b, ?_, rfl, rfl, rfl, rfl, rfl⟩, ?_, ?_⟩
        · exact hmono.1 _ (List.mem_append_right _ (List.mem_singleton.2 rfl))
        · intro lid hlid
          exact hmono.2.1 _ (List.mem_append_right _
            (List.mem_map.2 ⟨lid, hlid, rfl⟩))
        · intro aid haid
          exact hmono.2.2 _ (List.mem_append_right _
            (List.mem_map.2 ⟨aid, haid, rfl⟩))
      · exact ih (idx + 1) tx1 h m hmrest

/-- A batch write that reports an error leaves the store unchanged. -/
lemma BatchCreateIssues_error_unchanged (f : Faults) (db : Store)
    (issues : List IssueModel) (e : DBError)
    (h : (BatchCreateIssues f db issues).2 = some e) :
    (BatchCreateIssues f db issues).1 = db := by
  unfold BatchCreateIssues at h ⊢
  cases hb : batchLoopGo f 0 db issues with
  | error e2 => rfl
  | ok tx =>
    cases hc : f.commit with
    | some e2 => rfl
    | none => rw [hb, hc] at h; simp at h

/-- Claim C2: `BatchCreateIssues` is all-or-nothing — whenever any issue of
the batch fails to persist, or the final commit fails, the operation
reports the error and the store is exactly as before the call; and when it
succeeds, every issue of the batch is stored together with its label and
assignee association links by the single transaction. -/
theorem c2_batch_create_issues_all_or_nothing (f : Faults) (db : Store)
    (issues : List IssueModel) :
    (∀ e, (BatchCreateIssues f db issues).2 = some e →
      (BatchCreateIssues f db issues).1 = db) ∧
    ((BatchCreateIssues f db issues).2 = none →
      ∀ m ∈ issues, issueStored (BatchCreateIssues f db issues).1 m) := by
  refine ⟨fun e he => BatchCreateIssues_error_unchanged f db issues e he, fun hn => ?_⟩
  unfold BatchCreateIssues at hn ⊢
  cases hb : batchLoopGo f 0 db issues with
  | error e => rw [hb] at hn; simp at hn
  | ok tx =>
    cases hc : f.commit with
    | some e => rw [hb, hc] at hn; simp at hn
    | none =>
      intro m hm
      exact batchLoopGo_ok_stored f issues 0 db tx hb m hm

/-- Witness for C2: the successful batch of `issueL` stores it with its
label and assignee links, and the failing batch of `issueBad` (validator
violation) leaves the empty store empty. -/
theorem c2_batch_create_issues_all_or_nothing_witness :
    issueStored (BatchCreateIssues noFaults stSupport [issueL]).1 issueL ∧
    (BatchCreateIssues noFaults Store.empty [issueBad]).1 = Store.empty := by
  constructor
  · exact (c2_batch_create_issues_all_or_nothing noFaults stSupport [issueL]).2
      (by decide) issueL (by decide)
  · exact (c2_batch_create_issues_all_or_nothing noFaults Store.empty [issueBad]).1
      DBError.validation (by decide)

/-- After a successful `UpdateIssue`, every stored row with the updated id
carries the input's optional `closed_at` and `milestone_id` verbatim. -/
lemma UpdateIssue_ok_fields (st st2 : Store) (m : IssueModel)
    (h : UpdateIssue st m = .ok st2) :
    ∀ r ∈ st2.issues, r.id = m.id →
      r.closedAt = m.closedAt ∧ r.milestoneID = m.milestoneID := by
  intro r hr hid
  unfold UpdateIssue at h
  split_ifs at h
  all_goals (
    cases h
    obtain ⟨r0, hr0, hmap⟩ := List.mem_map.1 hr
    by_cases heq : r0.id = m.id
    case pos =>
      rw [if_pos (by simpa using heq)] at hmap
      subst hmap
      exact ⟨rfl, rfl⟩
    case neg =>
      rw [if_neg (by simpa using heq)] at hmap
      subst hmap
      exact absurd hid heq)

/-- After a successful `UpsertMilestone`, every stored milestone row with
the upserted id carries the input's optional `due_on` verbatim. -/
lemma UpsertMilestone_ok_dueOn (st st2 : Store) (mm : MilestoneModel)
    (h : UpsertMilestone st mm = .ok st2) :
    ∀ r ∈ st2.milestones, r.id = mm.id → r.dueOn = mm.dueOn := by
  intro r hr hid
  unfold UpsertMilestone at h
  by_cases hm : hasMilestone st mm.id
  · rw [if_pos hm] at h
    split_ifs at h
    all_goals (
      cases h
      obtain ⟨r0, hr0, hmap⟩ := List.mem_map.1 hr
      by_cases heq : r0.id = mm.id
      case pos =>
        rw [if_pos (by simpa using heq)] at hmap
        subst hmap
        rfl
      case neg =>
        rw [if_neg (by simpa using heq)] at hmap
        subst hmap
        exact absurd hid heq)
  · rw [if_neg hm] at h
    unfold CreateMilestone at h
    split_ifs at h
    all_goals (
      cases h
      rcases List.mem_append.1 hr with hold | hnew
      · exact absurd hid
          (hasMilestone_false_forall st mm.id (by simpa using hm) r hold)
      · rw [List.mem_singleton.1 hnew])

/-- Claim C3 (amended): the update paths set or clear the optional columns
from presence/absence in the input — after a successful `UpdateIssue`, the
row's `closed_at` and `milestone_id` equal the input's optional fields (so
omitting them clears previously stored values), and after a successful
`UpsertMilestone` the row's `due_on` equals the input's optional `DueOn`
(so omitting it clears a previously stored due date). -/
theorem c3_update_issue_and_upsert_milestone_clear (st : Store) (m : IssueModel)
    (mm : MilestoneModel) :
    (∀ st2, UpdateIssue st m = .ok st2 →
      ∀ r ∈ st2.issues, r.id = m.id →
        r.closedAt = m.closedAt ∧ r.milestoneID = m.milestoneID) ∧
    (∀ st2, UpsertMilestone st mm = .ok st2 →
      ∀ r ∈ st2.milestones, r.id = mm.id → r.dueOn = mm.dueOn) := by
  exact ⟨fun st2 h => UpdateIssue_ok_fields st st2 m h,
         fun st2 h => UpsertMilestone_ok_dueOn st st2 mm h⟩

/-- Witness for C3 (amended): updating issue 1 while omitting `closedAt`
and the milestone clears both stored values, and upserting milestone 5
while omitting `dueOn` clears its stored due date. -/
theorem c3_update_issue_and_upsert_milestone_clear_witness :
    rowCleared.closedAt = issueA.closedAt ∧
    rowCleared.milestoneID = issueA.milestoneID ∧
    msCleared.dueOn = milestone5.dueOn := by
  have h1 := (c3_update_issue_and_upsert_milestone_clear stC3 issueA milestone5).1
    stC3U (by rfl) rowCleared (by decide) (by decide)
  have h2 := (c3_update_issue_and_upsert_milestone_clear stC3 issueA milestone5).2
    stC3M (by rfl) msCleared (by decide) (by decide)
  exact ⟨h1.1, h1.2, h2⟩

/-- Claim C5 (amended), first half: writing a *new* issue whose referenced
milestone has never been upserted does not fail — the batch write succeeds
and the issue row is stored with no milestone link. -/
theorem c5_new_issue_missing_milestone_tolerated (st : Store) (m : IssueModel)
    (mid : Int)
    (hmid : m.milestoneID = some mid) (hmiss : hasMilestone st mid = false)
    (htitle : m.title ≠ "") (hfresh : hasIssue st m.id = false)
    (huser : m.userID ≠ 0 → hasUser st m.userID = true)
    (hlabels : m.labels.all (fun lid => hasLabel st lid) = true)
    (hassign : m.assignees.all (fun aid => hasUser st aid) = true) :
    (BatchCreateIssues noFaults st [m]
      = ({ st with
            issues := st.issues ++ [issueRowOf m false],
            issueLabels := st.issueLabels ++ m.labels.map (fun lid => (m.id, lid)),
            issueAssignees :=
              st.issueAssignees ++ m.assignees.map (fun aid => (m.id, aid)) }, none) ∧
     (issueRowOf m false).milestoneID = none) ∧
    (∀ st2, hasIssue st2 m.id = true →
      BatchCreateIssues noFaults st2 [m] = (st2, some (.alreadyExists m.id))) := by
  refine ⟨⟨?_, ?_⟩, ?_⟩
  · have hsave : saveIssue st m false = .ok { st with
        issues := st.issues ++ [issueRowOf m false],
        issueLabels := st.issueLabels ++ m.labels.map (fun lid => (m.id, lid)),
        issueAssignees :=
          st.issueAssignees ++ m.assignees.map (fun aid => (m.id, aid)) } := by
      unfold saveIssue
      rw [if_neg htitle, if_neg (by simp [hfresh]), if_neg ?husr,
          if_neg (by simp [hlabels]), if_neg (by simp [hassign])]
      case husr =>
        by_cases hu : m.userID = 0
        · simp [hu]
        · simp [hu, huser hu]
    have hstep : issueStepGo none none st m = saveIssue st m false := by
      unfold issueStepGo
      simp only [hmid]
      by_cases h0 : mid = 0
      · simp [h0]
      · simp [h0, hmiss]
    unfold BatchCreateIssues batchLoopGo
    simp only [noFaults, hstep, hsave]
    rfl
  · simp [issueRowOf, hmid]
  · intro st2 h2
    have hstep : issueStepGo none none st2 m = .error (.alreadyExists m.id) := by
      unfold issueStepGo
      simp only [hmid]
      have hsave2 : saveIssue st2 m (if mid = 0 then false else hasMilestone st2 mid)
          = .error (.alreadyExists m.id) := by
        unfold saveIssue
        rw [if_neg htitle, if_pos (by simp [h2])]
      by_cases h0 : mid = 0
      · simpa [h0] using (by rw [if_pos h0] at hsave2; exact hsave2)
      · simpa [h0] using (by rw [if_neg h0] at hsave2; exact hsave2)
    unfold BatchCreateIssues batchLoopGo
    simp only [noFaults, hstep]

/-- Witness for C5 (amended): `issueM5` (milestone 5 never upserted) is
written into the empty store without a milestone link, and the attempt to
write it again into a store that already has issue 1 fails on the
existence conflict. -/
theorem c5_new_issue_missing_milestone_tolerated_witness :
    BatchCreateIssues noFaults Store.empty [issueM5]
      = ({ Store.empty with
            issues := Store.empty.issues ++ [issueRowOf issueM5 false],
            issueLabels := Store.empty.issueLabels
              ++ issueM5.labels.map (fun lid => (issueM5.id, lid)),
            issueAssignees := Store.empty.issueAssignees
              ++ issueM5.assignees.map (fun aid => (issueM5.id, aid)) }, none) ∧
    (issueRowOf issueM5 false).milestoneID = none ∧
    BatchCreateIssues noFaults stClosed [issueM5]
      = (stClosed, some (.alreadyExists issueM5.id)) := by
  have h := c5_new_issue_missing_milestone_tolerated Store.empty issueM5 5
    (by decide) (by decide) (by decide) (by decide) (by decide) (by decide) (by decide)
  exact ⟨h.1.1, h.1.2, h.2 stClosed (by decide)⟩

/-- User upserts never touch the issue table. -/
lemma UpsertUser_ok_issues (st st2 : Store) (u : UserModel)
    (h : UpsertUser st u = .ok st2) : st2.issues = st.issues := by
  unfold UpsertUser CreateUser at h
  split_ifs at h
  all_goals first
    | exact absurd h (fun hc => Except.noConfusion hc)
    | (cases h; rfl)

/-- Label upserts never touch the issue table. -/
lemma UpsertLabel_ok_issues (st st2 : Store) (l : LabelModel)
    (h : UpsertLabel st l = .ok st2) : st2.issues = st.issues := by
  unfold UpsertLabel CreateLabel at h
  split_ifs at h
  all_goals first
    | exact absurd h (fun hc => Except.noConfusion hc)
    | (cases h; rfl)

/-- Milestone upserts never touch the issue table. -/
lemma UpsertMilestone_ok_issues (st st2 : Store) (m : MilestoneModel)
    (h : UpsertMilestone st m = .ok st2) : st2.issues = st.issues := by
  unfold UpsertMilestone CreateMilestone at h
  split_ifs at h
  all_goals first
    | exact absurd h (fun hc => Except.noConfusion hc)
    | (cases h; rfl)

/-- A store invariant survives `andThenSt` when it holds for the first
result and is preserved by the continuation. -/
lemma andThenSt_invariant (P : Store → Prop) (x : Store × Option DBError)
    (f : Store → Store × Option DBError) (hx : P x.1)
    (hf : ∀ db, P db → P (f db).1) : P (andThenSt x f).1 := by
  cases x with
  | mk d o =>
    cases o with
    | some e => exact hx
    | none => exact hf d hx

/-- `liftE` keeps the issue table fixed when the wrapped call does. -/
lemma liftE_fst_issues (db : Store) (x : Except DBError Store)
    (hx : ∀ db2, x = .ok db2 → db2.issues = db.issues) :
    ((liftE db x).1).issues = db.issues := by
  cases x with
  | error e => rfl
  | ok db2 => exact hx db2 rfl

/-- The creator upsert never touches the issue table. -/
lemma upsertCreator_fst_issues (db : Store) (ou : Option GHUser) :
    ((upsertCreator db ou).1).issues = db.issues := by
  cases ou with
  | none => rfl
  | some u =>
    exact liftE_fst_issues db _ (fun db2 h => UpsertUser_ok_issues db db2 _ h)

/-- The assignee-upsert loop never touches the issue table. -/
lemma upsertAssignees_fst_issues (as : List GHUser) (db : Store) :
    ((upsertAssignees db as).1).issues = db.issues := by
  induction as generalizing db with
  | nil => rfl
  | cons a rest ih =>
    refine andThenSt_invariant (fun s => s.issues = db.issues) _ _ ?_ ?_
    · exact liftE_fst_issues db _ (fun db2 h => UpsertUser_ok_issues db db2 _ h)
    · intro d hd
      exact (ih d).trans hd

/-- The label-upsert loop never touches the issue table. -/
lemma upsertLabels_fst_issues (ls : List GHLabel) (db : Store) :
    ((upsertLabels db ls).1).issues = db.issues := by
  induction ls generalizing db with
  | nil => rfl
  | cons l rest ih =>
    refine andThenSt_invariant (fun s => s.issues = db.issues) _ _ ?_ ?_
    · exact liftE_fst_issues db _ (fun db2 h => UpsertLabel_ok_issues db db2 _ h)
    · intro d hd
      exact (ih d).trans hd

/-- The milestone upsert never touches the issue table. -/
lemma upsertMilestoneOpt_fst_issues (db : Store) (om : Option GHMilestone) :
    ((upsertMilestoneOpt db om).1).issues = db.issues := by
  cases om with
  | none => rfl
  | some mi =>
    exact liftE_fst_issues db _ (fun db2 h => UpsertMilestone_ok_issues db db2 _ h)

/-- The supporting-entity pass never touches the issue table, whether it
succeeds or aborts. -/
lemma upsertSupportingEntities_fst_issues (gs : List GHIssue) (db : Store) :
    ((upsertSupportingEntities db gs).1).issues = db.issues := by
  induction gs generalizing db with
  | nil => rfl
  | cons g rest ih =>
    refine andThenSt_invariant (fun s => s.issues = db.issues) _ _
      (upsertCreator_fst_issues db g.user) ?_
    intro d1 h1
    refine andThenSt_invariant (fun s => s.issues = db.issues) _ _ ?_ ?_
    · exact (upsertAssignees_fst_issues g.assignees d1).trans h1
    · intro d2 h2
      refine andThenSt_invariant (fun s => s.issues = db.issues) _ _ ?_ ?_
      · exact (upsertLabels_fst_issues g.labels d2).trans h2
      · intro d3 h3
        refine andThenSt_invariant (fun s => s.issues = db.issues) _ _ ?_ ?_
        · exact (upsertMilestoneOpt_fst_issues d3 g.milestone).trans h3
        · intro d4 h4
          exact (ih d4).trans h4

/-- A `persistIssues` call that reports an error leaves the issue table
exactly as it was: the failed page's issues roll back with the batch, and
only supporting entities may have been upserted. -/
lemma persistIssues_error_issues (db : Store) (gs : List GHIssue) (e : DBError)
    (h : (persistIssues db gs).2 = some e) :
    ((persistIssues db gs).1).issues = db.issues := by
  unfold persistIssues at h ⊢
  cases hup : upsertSupportingEntities db gs with
  | mk db2 oe =>
    have hdb2 : db2.issues = db.issues := by
      have := upsertSupportingEntities_fst_issues gs db
      rw [hup] at this
      exact this
    cases oe with
    | some e2 => exact hdb2
    | none =>
      rw [hup] at h
      have hunch := BatchCreateIssues_error_unchanged noFaults db2
        (gs.map convertGitHubIssueToModel) e h
      rw [hunch, hdb2]

/-- Claim C7: at any reachable state of the sync loop, a fetch error or a
persist error aborts the whole operation immediately — exactly the one
failing call happens (no retry, no further page), the returned error
carries the page cursor at which it occurred, and the store keeps every
page committed before the failure: on a fetch error it is untouched, and
on a persist error the issue table is exactly what the previous pages
left. -/
theorem c7_fetch_or_persist_error_aborts (r : Remote) (fuel : Nat) (db : Store)
    (page calls : Nat) :
    (r.pages page = .error () →
      fetchLoop r (fuel + 1) db page calls
        = ⟨db, calls + 1, some (.fetchFailed page)⟩) ∧
    (∀ issues next db2 e, r.pages page = .ok (issues, next) → issues ≠ [] →
      persistIssues db issues = (db2, some e) →
      fetchLoop r (fuel + 1) db page calls
        = ⟨db2, calls + 1, some (.persistFailed page e)⟩ ∧
      db2.issues = db.issues) := by
  constructor
  · intro h
    unfold fetchLoop
    rw [h]
  · intro issues next db2 e hpage hne hpersist
    constructor
    · unfold fetchLoop
      simp only [hpage]
      rw [if_neg (by simpa using hne)]
      simp only [hpersist]
    · have := persistIssues_error_issues db issues e (by rw [hpersist])
      rw [hpersist] at this
      exact this

/-- Witness for C7: with the always-failing remote, the loop aborts on the
first call carrying page 0 and leaves the store untouched; and with the
one-issue remote against a store that already holds issue 1 (an engineered
persist failure), the loop aborts on the first call carrying page 0 and
the persist error, with the issue table intact. -/
theorem c7_fetch_or_persist_error_aborts_witness :
    fetchLoop remoteFetchErr 1 Store.empty 0 0
      = ⟨Store.empty, 1, some (.fetchFailed 0)⟩ ∧
    fetchLoop remoteOneIssue 1 stClosed 0 0
      = ⟨stClosed, 1, some (.persistFailed 0 (.alreadyExists 1))⟩ ∧
    stClosed.issues = stClosed.issues := by
  refine ⟨(c7_fetch_or_persist_error_aborts remoteFetchErr 0 Store.empty 0 0).1 rfl, ?_, ?_⟩
  · exact ((c7_fetch_or_persist_error_aborts remoteOneIssue 0 stClosed 0 0).2
      [ghIssueA] 0 stClosed (.alreadyExists 1) rfl (by decide) (by rfl)).1
  · exact ((c7_fetch_or_persist_error_aborts remoteOneIssue 0 stClosed 0 0).2
      [ghIssueA] 0 stClosed (.alreadyExists 1) rfl (by decide) (by rfl)).2

/-- Two booleans agreeing as propositions are equal. -/
lemma bool_eq_of_iff {a b : Bool} (h : a = true ↔ b = true) : a = b := by
  cases a <;> cases b <;> simp_all

/-- `hasIssue` only looks at the issue table. -/
lemma hasIssue_congr (st st2 : Store) (x : Int) (h : st2.issues = st.issues) :
    hasIssue st2 x = hasIssue st x := by
  unfold hasIssue
  rw [h]

/-- `hasUser` only looks at the user table. -/
lemma hasUser_congr (st st2 : Store) (x : Int) (h : st2.users = st.users) :
    hasUser st2 x = hasUser st x := by
  unfold hasUser
  rw [h]

/-- `hasLabel` only looks at the label table. -/
lemma hasLabel_congr (st st2 : Store) (x : Int) (h : st2.labels = st.labels) :
    hasLabel st2 x = hasLabel st x := by
  unfold hasLabel
  rw [h]

/-- `hasMilestone` only looks at the milestone table. -/
lemma hasMilestone_congr (st st2 : Store) (x : Int) (h : st2.milestones = st.milestones) :
    hasMilestone st2 x = hasMilestone st x := by
  unfold hasMilestone
  rw [h]

/-- A user upsert with a non-empty login always succeeds; afterwards the
user table answers for the upserted id and everything it answered before,
and the other tables are untouched. -/
lemma UpsertUser_ok_presence (st : Store) (u : UserModel) (hlogin : u.login ≠ "") :
    ∃ st2, UpsertUser st u = .ok st2 ∧
      (∀ x, hasUser st2 x = (hasUser st x || (u.id == x))) ∧
      st2.labels = st.labels ∧ st2.milestones = st.milestones ∧
      st2.issues = st.issues := by
  unfold UpsertUser CreateUser
  by_cases hd : hasUser st u.id
  · rw [if_pos hd, if_neg hlogin]
    refine ⟨_, rfl, ?_, rfl, rfl, rfl⟩
    intro x
    apply bool_eq_of_iff
    simp only [hasUser, List.any_eq_true, List.mem_map, Bool.or_eq_true, beq_iff_eq]
    constructor
    · rintro ⟨r, ⟨r0, hr0, rfl⟩, hrx⟩
      by_cases hru : r0.id = u.id
      · right; simpa [hru] using hrx
      · left; exact ⟨r0, hr0, by simpa [hru] using hrx⟩
    · rintro (⟨r0, hr0, hrx⟩ | hux)
      · by_cases hru : r0.id = u.id
        · exact ⟨u, ⟨r0, hr0, by simp [hru]⟩, by rw [← hrx, hru]⟩
        · exact ⟨r0, ⟨r0, hr0, by simp [hru]⟩, hrx⟩
      · obtain ⟨r0, hr0, hr0u⟩ := by
          simpa only [hasUser, List.any_eq_true, beq_iff_eq] using hd
        exact ⟨u, ⟨r0, hr0, by simp [hr0u]⟩, hux⟩
  · rw [if_neg hd, if_neg hlogin, if_neg hd]
    refine ⟨_, rfl, ?_, rfl, rfl, rfl⟩
    intro x
    simp [hasUser, List.any_append]

/-- A label upsert with a non-empty name always succeeds; afterwards the
label table answers for the upserted id and everything it answered before,
and the other tables are untouched. -/
lemma UpsertLabel_ok_presence (st : Store) (l : LabelModel) (hname : l.name ≠ "") :
    ∃ st2, UpsertLabel st l = .ok st2 ∧
      (∀ x, hasLabel st2 x = (hasLabel st x || (l.id == x))) ∧
      st2.users = st.users ∧ st2.milestones = st.milestones ∧
      st2.issues = st.issues := by
  unfold UpsertLabel CreateLabel
  by_cases hd : hasLabel st l.id
  · rw [if_pos hd, if_neg hname]
    refine ⟨_, rfl, ?_, rfl, rfl, rfl⟩
    intro x
    apply bool_eq_of_iff
    simp only [hasLabel, List.any_eq_true, List.mem_map, Bool.or_eq_true, beq_iff_eq]
    constructor
    · rintro ⟨r, ⟨r0, hr0, rfl⟩, hrx⟩
      by_cases hru : r0.id = l.id
      · right; simpa [hru] using hrx
      · left; exact ⟨r0, hr0, by simpa [hru] using hrx⟩
    · rintro (⟨r0, hr0, hrx⟩ | hux)
      · by_cases hru : r0.id = l.id
        · exact ⟨l, ⟨r0, hr0, by simp [hru]⟩, by rw [← hrx, hru]⟩
        · exact ⟨r0, ⟨r0, hr0, by simp [hru]⟩, hrx⟩
      · obtain ⟨r0, hr0, hr0u⟩ := by
          simpa only [hasLabel, List.any_eq_true, beq_iff_eq] using hd
        exact ⟨l, ⟨r0, hr0, by simp [hr0u]⟩, hux⟩
  · rw [if_neg hd, if_neg hname, if_neg hd]
    refine ⟨_, rfl, ?_, rfl, rfl, rfl⟩
    intro x
    simp [hasLabel, List.any_append]

/-- A milestone upsert with a non-empty title always succeeds; afterwards
the milestone table answers for the upserted id and everything it answered
before, and the other tables are untouched. -/
lemma UpsertMilestone_ok_presence (st : Store) (m : MilestoneModel)
    (htitle : m.title ≠ "") :
    ∃ st2, UpsertMilestone st m = .ok st2 ∧
      (∀ x, hasMilestone st2 x = (hasMilestone st x || (m.id == x))) ∧
      st2.users = st.users ∧ st2.labels = st.labels ∧
      st2.issues = st.issues := by
  unfold UpsertMilestone CreateMilestone
  by_cases hd : hasMilestone st m.id
  · rw [if_pos hd, if_neg htitle]
    refine ⟨_, rfl, ?_, rfl, rfl, rfl⟩
    intro x
    apply bool_eq_of_iff
    simp only [hasMilestone, List.any_eq_true, List.mem_map, Bool.or_eq_true, beq_iff_eq]
    constructor
    · rintro ⟨r, ⟨r0, hr0, rfl⟩, hrx⟩
      by_cases hru : r0.id = m.id
      · right; simpa [hru] using hrx
      · left; exact ⟨r0, hr0, by simpa [hru] using hrx⟩
    · rintro (⟨r0, hr0, hrx⟩ | hux)
      · by_cases hru : r0.id = m.id
        · exact ⟨{ r0 with number := m.number, title := m.title, description := m.description, state := m.state, dueOn := m.dueOn, updatedAt := m.updatedAt }, ⟨r0, hr0, by simp [hru]⟩, hrx⟩
        · exact ⟨r0, ⟨r0, hr0, by simp [hru]⟩, hrx⟩
      · obtain ⟨r0, hr0, hr0u⟩ := by
          simpa only [hasMilestone, List.any_eq_true, beq_iff_eq] using hd
        exact ⟨{ r0 with number := m.number, title := m.title, description := m.description, state := m.state, dueOn := m.dueOn, updatedAt := m.updatedAt }, ⟨r0, hr0, by simp [hr0u]⟩, hr0u.trans hux⟩
  · rw [if_neg hd, if_neg htitle, if_neg hd]
    refine ⟨_, rfl, ?_, rfl, rfl, rfl⟩
    intro x
    simp [hasMilestone, List.any_append]

lemma supportOutcome_refl (db : Store) : supportOutcome db db :=
  ⟨fun _ h => h, fun _ h => h, fun _ h => h, rfl⟩

lemma supportOutcome_trans {db st1 st2 : Store} (h1 : supportOutcome db st1)
    (h2 : supportOutcome st1 st2) : supportOutcome db st2 :=
  ⟨fun x hx => h2.1 x (h1.1 x hx), fun x hx => h2.2.1 x (h1.2.1 x hx),
   fun x hx => h2.2.2.1 x (h1.2.2.1 x hx), h2.2.2.2.trans h1.2.2.2⟩

lemma pageEntitiesPresent_mono {st1 st2 : Store} (g : GHIssue)
    (h : supportOutcome st1 st2) (hp : pageEntitiesPresent st1 g) :
    pageEntitiesPresent st2 g :=
  ⟨fun u hu => h.1 _ (hp.1 u hu), fun a ha => h.1 _ (hp.2.1 a ha),
   fun l hl => h.2.1 _ (hp.2.2.1 l hl), fun mi hmi => h.2.2.1 _ (hp.2.2.2 mi hmi)⟩

/-- The creator upsert succeeds on a well-formed creator, preserves the
store's answers and establishes the creator row. -/
lemma upsertCreator_ok (db : Store) (ou : Option GHUser)
    (h : ∀ u, ou = some u → u.login.getD "" ≠ "") :
    ∃ st2, upsertCreator db ou = (st2, none) ∧ supportOutcome db st2 ∧
      (∀ u, ou = some u → hasUser st2 (u.id.getD 0) = true) := by
  cases ou with
  | none => exact ⟨db, rfl, supportOutcome_refl db, fun u hu => Option.noConfusion hu⟩
  | some u =>
    obtain ⟨st2, hok, hpres, hlab, hmil, hiss⟩ :=
      UpsertUser_ok_presence db (convertGitHubUserToModel u) (h u rfl)
    refine ⟨st2, ?_, ⟨fun x hx => ?_, fun x hx => ?_, fun x hx => ?_, ?_⟩, ?_⟩
    · simp only [upsertCreator, liftE, hok]
    · rw [hpres x, hx]; rfl
    · exact (hasLabel_congr db st2 x hlab).trans hx
    · exact (hasMilestone_congr db st2 x hmil).trans hx
    · exact hiss
    · intro u2 hu2
      cases hu2
      rw [hpres]
      simp [convertGitHubUserToModel]

/-- The assignee loop succeeds on well-formed assignees, preserves the
store's answers and establishes every assignee row. -/
lemma upsertAssignees_ok (as : List GHUser) (db : Store)
    (h : ∀ a ∈ as, a.login.getD "" ≠ "") :
    ∃ st2, upsertAssignees db as = (st2, none) ∧ supportOutcome db st2 ∧
      (∀ a ∈ as, hasUser st2 (a.id.getD 0) = true) := by
  induction as generalizing db with
  | nil => exact ⟨db, rfl, supportOutcome_refl db, fun a ha => absurd ha (List.not_mem_nil a)⟩
  | cons a rest ih =>
    obtain ⟨st1, hok, hpres, hlab, hmil, hiss⟩ :=
      UpsertUser_ok_presence db (convertGitHubUserToModel a) (h a (List.mem_cons_self a rest))
    have hso1 : supportOutcome db st1 := by
      refine ⟨fun x hx => ?_, fun x hx => ?_, fun x hx => ?_, hiss⟩
      · rw [hpres x, hx]; rfl
      · exact (hasLabel_congr db st1 x hlab).trans hx
      · exact (hasMilestone_congr db st1 x hmil).trans hx
    obtain ⟨st2, hok2, hso2, hall⟩ := ih st1 (fun a2 ha2 => h a2 (List.mem_cons_of_mem a ha2))
    refine ⟨st2, ?_, supportOutcome_trans hso1 hso2, ?_⟩
    · unfold upsertAssignees liftE
      rw [hok]
      exact hok2
    · intro a2 ha2
      rcases List.mem_cons.1 ha2 with rfl | hmem
      · apply hso2.1
        rw [hpres]
        simp [convertGitHubUserToModel]
      · exact hall a2 hmem

/-- The label loop succeeds on well-formed labels, preserves the store's
answers and establishes every label row. -/
lemma upsertLabels_ok (ls : List GHLabel) (db : Store)
    (h : ∀ l ∈ ls, l.name.getD "" ≠ "") :
    ∃ st2, upsertLabels db ls = (st2, none) ∧ supportOutcome db st2 ∧
      (∀ l ∈ ls, hasLabel st2 (l.id.getD 0) = true) := by
  induction ls generalizing db with
  | nil => exact ⟨db, rfl, supportOutcome_refl db, fun l hl => absurd hl (List.not_mem_nil l)⟩
  | cons l rest ih =>
    obtain ⟨st1, hok, hpres, husr, hmil, hiss⟩ :=
      UpsertLabel_ok_presence db (convertGitHubLabelToModel l) (h l (List.mem_cons_self l rest))
    have hso1 : supportOutcome db st1 := by
      refine ⟨fun x hx => ?_, fun x hx => ?_, fun x hx => ?_, hiss⟩
      · exact (hasUser_congr db st1 x husr).trans hx
      · rw [hpres x, hx]; rfl
      · exact (hasMilestone_congr db st1 x hmil).trans hx
    obtain ⟨st2, hok2, hso2, hall⟩ := ih st1 (fun l2 hl2 => h l2 (List.mem_cons_of_mem l hl2))
    refine ⟨st2, ?_, supportOutcome_trans hso1 hso2, ?_⟩
    · unfold upsertLabels liftE
      rw [hok]
      exact hok2
    · intro l2 hl2
      rcases List.mem_cons.1 hl2 with rfl | hmem
      · apply hso2.2.1
        rw [hpres]
        simp [convertGitHubLabelToModel]
      · exact hall l2 hmem

/-- The milestone upsert succeeds on a well-formed milestone, preserves
the store's answers and establishes the milestone row. -/
lemma upsertMilestoneOpt_ok (db : Store) (om : Option GHMilestone)
    (h : ∀ mi, om = some mi → mi.title.getD "" ≠ "") :
    ∃ st2, upsertMilestoneOpt db om = (st2, none) ∧ supportOutcome db st2 ∧
      (∀ mi, om = some mi → hasMilestone st2 (mi.id.getD 0) = true) := by
  cases om with
  | none => exact ⟨db, rfl, supportOutcome_refl db, fun mi hmi => Option.noConfusion hmi⟩
  | some mi =>
    obtain ⟨st2, hok, hpres, husr, hlab, hiss⟩ :=
      UpsertMilestone_ok_presence db (convertGitHubMilestoneToModel mi) (h mi rfl)
    refine ⟨st2, ?_, ⟨fun x hx => ?_, fun x hx => ?_, fun x hx => ?_, ?_⟩, ?_⟩
    · simp only [upsertMilestoneOpt, liftE, hok]
    · exact (hasUser_congr db st2 x husr).trans hx
    · exact (hasLabel_congr db st2 x hlab).trans hx
    · rw [hpres x, hx]; rfl
    · exact hiss
    · intro mi2 hmi2
      cases hmi2
      rw [hpres]
      simp [convertGitHubMilestoneToModel]

/-- The supporting-entity pass of `persistIssues` succeeds on a list of
well-formed raw issues, preserves the store's answers and the issue table,
and establishes every row the page's issues will link to. -/
lemma upsertSupportingEntities_ok (gs : List GHIssue) (db : Store)
    (hwf : ∀ g ∈ gs, ghIssueWellFormed g = true) :
    ∃ st2, upsertSupportingEntities db gs = (st2, none) ∧ supportOutcome db st2 ∧
      ∀ g ∈ gs, pageEntitiesPresent st2 g := by
  induction gs generalizing db with
  | nil =>
    exact ⟨db, rfl, supportOutcome_refl db, fun g hg => absurd hg (List.not_mem_nil g)⟩
  | cons g rest ih =>
    have hg := hwf g (List.mem_cons_self g rest)
    unfold ghIssueWellFormed at hg
    simp only [Bool.and_eq_true] at hg
    obtain ⟨⟨⟨⟨-, hu⟩, ha⟩, hl⟩, hm⟩ := hg
    have hu2 : ∀ u, g.user = some u → u.login.getD "" ≠ "" := by
      intro u hu3
      rw [hu3] at hu
      simpa using hu
    have ha2 : ∀ a ∈ g.assignees, a.login.getD "" ≠ "" := by
      intro a hamem
      have := List.all_eq_true.1 ha a hamem
      simpa using this
    have hl2 : ∀ l ∈ g.labels, l.name.getD "" ≠ "" := by
      intro l hlmem
      have := List.all_eq_true.1 hl l hlmem
      simpa using this
    have hm2 : ∀ mi, g.milestone = some mi → mi.title.getD "" ≠ "" := by
      intro mi hmi
      rw [hmi] at hm
      simpa using hm
    obtain ⟨st1, e1, so1, p1⟩ := upsertCreator_ok db g.user hu2
    obtain ⟨st2, e2, so2, p2⟩ := upsertAssignees_ok g.assignees st1 ha2
    obtain ⟨st3, e3, so3, p3⟩ := upsertLabels_ok g.labels st2 hl2
    obtain ⟨st4, e4, so4, p4⟩ := upsertMilestoneOpt_ok st3 g.milestone hm2
    obtain ⟨st5, e5, so5, p5⟩ :=
      ih st4 (fun g2 hg2 => hwf g2 (List.mem_cons_of_mem g hg2))
    refine ⟨st5, ?_, ?_, ?_⟩
    · simp only [upsertSupportingEntities, andThenSt, e1, e2, e3, e4, e5]
    · exact supportOutcome_trans so1 (supportOutcome_trans so2
        (supportOutcome_trans so3 (supportOutcome_trans so4 so5)))
    · intro g2 hg2
      rcases List.mem_cons.1 hg2 with rfl | hmem
      · have so25 := supportOutcome_trans so2
          (supportOutcome_trans so3 (supportOutcome_trans so4 so5))
        have so35 := supportOutcome_trans so3 (supportOutcome_trans so4 so5)
        have so45 := supportOutcome_trans so4 so5
        exact ⟨fun u hu4 => so25.1 _ (p1 u hu4),
               fun a hamem => so35.1 _ (p2 a hamem),
               fun l hlmem => so45.2.1 _ (p3 l hlmem),
               fun mi hmi => so5.2.2.1 _ (p4 mi hmi)⟩
      · exact p5 g2 hmem

/-- `Save` succeeds when the validator passes, the id is fresh and every
referenced row exists; the transaction gains the row and its join rows. -/
lemma saveIssue_ok_of (tx : Store) (m : IssueModel) (b : Bool)
    (ht : m.title ≠ "") (hf : hasIssue tx m.id = false)
    (hu : m.userID ≠ 0 → hasUser tx m.userID = true)
    (hl : ∀ lid ∈ m.labels, hasLabel tx lid = true)
    (ha : ∀ aid ∈ m.assignees, hasUser tx aid = true) :
    saveIssue tx m b = .ok { tx with
      issues := tx.issues ++ [issueRowOf m b],
      issueLabels := tx.issueLabels ++ m.labels.map (fun lid => (m.id, lid)),
      issueAssignees := tx.issueAssignees ++ m.assignees.map (fun aid => (m.id, aid)) } := by
  have hlall : m.labels.all (fun lid => hasLabel tx lid) = true :=
    List.all_eq_true.2 (fun lid hmem => hl lid hmem)
  have haall : m.assignees.all (fun aid => hasUser tx aid) = true :=
    List.all_eq_true.2 (fun aid hmem => ha aid hmem)
  unfold saveIssue
  rw [if_neg ht, if_neg (by simp [hf]), if_neg ?husr, if_neg (by simp [hlall]),
      if_neg (by simp [haall])]
  case husr =>
    by_cases h0 : m.userID = 0
    · simp [h0]
    · simp [h0, hu h0]

/-- With no injected faults, the per-issue step is exactly a `Save` with
the milestone-existence outcome computed from the transaction. -/
lemma issueStepGo_noFaults (tx : Store) (m : IssueModel) :
    issueStepGo none none tx m
      = saveIssue tx m (match m.milestoneID with
          | none => false
          | some mid => if mid = 0 then false else hasMilestone tx mid) := by
  unfold issueStepGo
  cases hmi : m.milestoneID with
  | none => rfl
  | some mid =>
    by_cases h0 : mid = 0 <;> simp [h0]

/-- The batch loop succeeds on a list of insertable issues with pairwise
distinct ids: the issue table gains one row per issue, the issue table
answers exactly for the old and the new ids, and the entity tables are
untouched. -/
lemma batchLoopGo_ok_of (ms : List IssueModel) (tx : Store) (idx : Nat)
    (hins : ∀ m ∈ ms, m.title ≠ "" ∧ hasIssue tx m.id = false ∧
      (m.userID ≠ 0 → hasUser tx m.userID = true) ∧
      (∀ lid ∈ m.labels, hasLabel tx lid = true) ∧
      (∀ aid ∈ m.assignees, hasUser tx aid = true))
    (hnodup : (ms.map IssueModel.id).Nodup) :
    ∃ tx2, batchLoopGo noFaults idx tx ms = .ok tx2 ∧
      tx2.issues.length = tx.issues.length + ms.length ∧
      (∀ x, hasIssue tx2 x = (hasIssue tx x || ms.any (fun m => m.id == x))) ∧
      tx2.users = tx.users ∧ tx2.labels = tx.labels ∧ tx2.milestones = tx.milestones := by
  induction ms generalizing tx idx with
  | nil =>
    exact ⟨tx, rfl, by simp, fun x => by simp, rfl, rfl, rfl⟩
  | cons m rest ih =>
    obtain ⟨ht, hf, hu, hl, ha⟩ := hins m (List.mem_cons_self m rest)
    have hsave := saveIssue_ok_of tx m
      (match m.milestoneID with
        | none => false
        | some mid => if mid = 0 then false else hasMilestone tx mid) ht hf hu hl ha
    have hstep := (issueStepGo_noFaults tx m).trans hsave
    have htx1has : ∀ x, hasIssue { tx with
        issues := tx.issues ++ [issueRowOf m (match m.milestoneID with
          | none => false
          | some mid => if mid = 0 then false else hasMilestone tx mid)],
        issueLabels := tx.issueLabels ++ m.labels.map (fun lid => (m.id, lid)),
        issueAssignees := tx.issueAssignees ++ m.assignees.map (fun aid => (m.id, aid)) } x
        = (hasIssue tx x || (m.id == x)) := by
      intro x
      simp [hasIssue, List.any_append, issueRowOf]
    have hmid : m.id ∉ rest.map IssueModel.id := by
      have := List.nodup_cons.1 hnodup
      exact this.1
    have hins2 : ∀ m2 ∈ rest, m2.title ≠ "" ∧ hasIssue { tx with
        issues := tx.issues ++ [issueRowOf m (match m.milestoneID with
          | none => false
          | some mid => if mid = 0 then false else hasMilestone tx mid)],
        issueLabels := tx.issueLabels ++ m.labels.map (fun lid => (m.id, lid)),
        issueAssignees := tx.issueAssignees ++ m.assignees.map (fun aid => (m.id, aid)) } m2.id = false ∧
        (m2.userID ≠ 0 → hasUser tx m2.userID = true) ∧
        (∀ lid ∈ m2.labels, hasLabel tx lid = true) ∧
        (∀ aid ∈ m2.assignees, hasUser tx aid = true) := by
      intro m2 hm2
      obtain ⟨ht2, hf2, hu2, hl2, ha2⟩ := hins m2 (List.mem_cons_of_mem m hm2)
      refine ⟨ht2, ?_, hu2, hl2, ha2⟩
      rw [htx1has m2.id, hf2]
      have hne : m.id ≠ m2.id := by
        intro hcontra
        exact hmid (hcontra ▸ List.mem_map_of_mem IssueModel.id hm2)
      simp [hne]
    obtain ⟨tx2, hloop, hlen, hhas, hus, hlb, hms⟩ :=
      ih _ (idx + 1) hins2 (List.nodup_cons.1 hnodup).2
    refine ⟨tx2, ?_, ?_, ?_, hus, hlb, hms⟩
    · simp only [batchLoopGo, noFaults, hstep]
      exact hloop
    · rw [hlen]
      simp
      omega
    · intro x
      rw [hhas x, htx1has x]
      simp [Bool.or_assoc]

/-- Well-formedness gives a non-empty title. -/
lemma ghIssueWellFormed_title {g : GHIssue} (h : ghIssueWellFormed g = true) :
    g.title.getD "" ≠ "" := by
  unfold ghIssueWellFormed at h
  simp only [Bool.and_eq_true] at h
  simpa using h.1.1.1.1

/-- Converting a page commutes with asking for an issue id. -/
lemma any_id_map_convert (gs : List GHIssue) (x : Int) :
    (gs.map convertGitHubIssueToModel).any (fun m => m.id == x)
      = gs.any (fun g => g.id.getD 0 == x) := by
  induction gs with
  | nil => rfl
  | cons g rest ihg =>
    simp only [List.map_cons, List.any_cons, ihg]
    rfl

/-- Persisting one page of well-formed raw issues with fresh, pairwise
distinct ids succeeds: the issue table gains one row per raw issue and
afterwards answers exactly for the old ids and the page's ids. -/
lemma persistIssues_ok (db : Store) (gs : List GHIssue)
    (hwf : ∀ g ∈ gs, ghIssueWellFormed g = true)
    (hfresh : ∀ g ∈ gs, hasIssue db (g.id.getD 0) = false)
    (hnodup : (gs.map (fun g => g.id.getD 0)).Nodup) :
    ∃ db2, persistIssues db gs = (db2, none) ∧
      db2.issues.length = db.issues.length + gs.length ∧
      (∀ x, hasIssue db2 x = (hasIssue db x || gs.any (fun g => g.id.getD 0 == x))) := by
  obtain ⟨st2, e2, so2, pres⟩ := upsertSupportingEntities_ok gs db hwf
  have hiss2 : st2.issues = db.issues := so2.2.2.2
  have hins : ∀ m ∈ gs.map convertGitHubIssueToModel, m.title ≠ "" ∧
      hasIssue st2 m.id = false ∧
      (m.userID ≠ 0 → hasUser st2 m.userID = true) ∧
      (∀ lid ∈ m.labels, hasLabel st2 lid = true) ∧
      (∀ aid ∈ m.assignees, hasUser st2 aid = true) := by
    intro m hm
    obtain ⟨g, hgmem, rfl⟩ := List.mem_map.1 hm
    have hp := pres g hgmem
    refine ⟨ghIssueWellFormed_title (hwf g hgmem), ?_, ?_, ?_, ?_⟩
    · exact (hasIssue_congr db st2 _ hiss2).trans (hfresh g hgmem)
    · intro hne
      cases hgu : g.user with
      | none => simp [convertGitHubIssueToModel, hgu] at hne
      | some u =>
        have := hp.1 u hgu
        simpa [convertGitHubIssueToModel, hgu] using this
    · intro lid hlid
      obtain ⟨l, hlmem, rfl⟩ :=
        List.mem_map.1 (by simpa [convertGitHubIssueToModel] using hlid)
      exact hp.2.2.1 l hlmem
    · intro aid haid
      obtain ⟨a, hamem, rfl⟩ :=
        List.mem_map.1 (by simpa [convertGitHubIssueToModel] using haid)
      exact hp.2.1 a hamem
  have hnodup2 : ((gs.map convertGitHubIssueToModel).map IssueModel.id).Nodup := by
    rw [List.map_map]
    exact hnodup
  obtain ⟨tx2, hloop, hlen, hhas, -, -, -⟩ :=
    batchLoopGo_ok_of (gs.map convertGitHubIssueToModel) st2 0 hins hnodup2
  refine ⟨tx2, ?_, ?_, ?_⟩
  · unfold persistIssues
    simp only [e2]
    unfold BatchCreateIssues
    rw [hloop]
    rfl
  · rw [hlen, hiss2, List.length_map]
  · intro x
    rw [hhas x, hasIssue_congr db st2 x hiss2, any_id_map_convert gs x]

/-- The spec-modelled repository upsert never touches the issue table. -/
lemma UpsertRepository_issues (st : Store) (rm : RepositoryModel) :
    (UpsertRepository st rm).issues = st.issues := by
  unfold UpsertRepository
  split <;> rfl

/-- One successful loop iteration: fetch a non-empty page, persist it, and
continue at the non-zero next-page token with one more call recorded. -/
lemma fetchLoop_step (r : Remote) (fuel : Nat) (db : Store) (page calls : Nat)
    (issues : List GHIssue) (next : Nat) (db2 : Store)
    (hp : r.pages page = .ok (issues, next)) (hne : issues ≠ []) (hnext : next ≠ 0)
    (hpersist : persistIssues db issues = (db2, none)) :
    fetchLoop r (fuel + 1) db page calls = fetchLoop r fuel db2 next (calls + 1) := by
  conv_lhs => rw [fetchLoop]
  simp only [hp]
  rw [if_neg (by simpa using hne)]
  simp only [hpersist]
  rw [if_neg hnext]

/-- An empty page terminates the loop successfully after its fetch call. -/
lemma fetchLoop_empty (r : Remote) (fuel : Nat) (db : Store) (page calls next : Nat)
    (hp : r.pages page = .ok ([], next)) :
    fetchLoop r (fuel + 1) db page calls = ⟨db, calls + 1, none⟩ := by
  unfold fetchLoop
  simp [hp]

/-- A no-next-page signal (`next = 0`) on a non-empty page terminates the
loop successfully once the page is persisted. -/
lemma fetchLoop_lastPage (r : Remote) (fuel : Nat) (db : Store) (page calls : Nat)
    (issues : List GHIssue) (db2 : Store)
    (hp : r.pages page = .ok (issues, 0)) (hne : issues ≠ [])
    (hpersist : persistIssues db issues = (db2, none)) :
    fetchLoop r (fuel + 1) db page calls = ⟨db2, calls + 1, none⟩ := by
  unfold fetchLoop
  simp only [hp]
  rw [if_neg (by simpa using hne)]
  simp only [hpersist]
  rw [if_pos trivial]

/-- Claim C6: against a remote source that returns three pages of two
well-formed issues each (with distinct ids and non-zero next-page tokens
up to an empty fourth page), `FetchAndStoreAllIssues` terminates
successfully from the empty store with exactly 4 issue-list fetch calls
and exactly 6 persisted issues — the empty fourth page is what ends this
run; and, for every remote and reachable loop state, a no-next-page
signal (`next = 0`) on a non-empty page also terminates the loop
successfully right after the page is persisted. -/
theorem c6_three_pages_of_two_then_empty (k t1 t2 t3 n : Nat)
    (g1 g2 g3 g4 g5 g6 : GHIssue) (gr : GHRepository) (r : Remote)
    (hrepo : r.repo = .ok gr)
    (hp0 : r.pages 0 = .ok ([g1, g2], t1)) (ht1 : t1 ≠ 0)
    (hp1 : r.pages t1 = .ok ([g3, g4], t2)) (ht2 : t2 ≠ 0)
    (hp2 : r.pages t2 = .ok ([g5, g6], t3)) (ht3 : t3 ≠ 0)
    (hp3 : r.pages t3 = .ok ([], n))
    (hwf : ∀ g ∈ [g1, g2, g3, g4, g5, g6], ghIssueWellFormed g = true)
    (hnodup : ([g1, g2, g3, g4, g5, g6].map (fun g => g.id.getD 0)).Nodup) :
    (FetchAndStoreAllIssues r (k + 4) Store.empty).res = none ∧
    (FetchAndStoreAllIssues r (k + 4) Store.empty).calls = 4 ∧
    (FetchAndStoreAllIssues r (k + 4) Store.empty).db.issues.length = 6 ∧
    (∀ (r2 : Remote) (fuel : Nat) (db : Store) (page calls : Nat)
       (issues : List GHIssue) (db2 : Store),
       r2.pages page = .ok (issues, 0) → issues ≠ [] →
       persistIssues db issues = (db2, none) →
       fetchLoop r2 (fuel + 1) db page calls = ⟨db2, calls + 1, none⟩) := by
  simp only [List.map_cons, List.map_nil, List.nodup_cons, List.mem_cons,
    List.mem_singleton, List.not_mem_nil, List.nodup_nil, not_or,
    not_false_eq_true, and_true] at hnodup
  obtain ⟨⟨h12, h13, h14, h15, h16⟩, ⟨h23, h24, h25, h26⟩,
    ⟨h34, h35, h36⟩, ⟨h45, h46⟩, h56⟩ := hnodup
  have hwf1 : ∀ g ∈ [g1, g2], ghIssueWellFormed g = true := by
    intro g hg
    rcases List.mem_cons.1 hg with rfl | hg2
    · exact hwf g (by simp)
    · rcases List.mem_singleton.1 hg2 with rfl
      exact hwf g (by simp)
  have hwf2 : ∀ g ∈ [g3, g4], ghIssueWellFormed g = true := by
    intro g hg
    rcases List.mem_cons.1 hg with rfl | hg2
    · exact hwf g (by simp)
    · rcases List.mem_singleton.1 hg2 with rfl
      exact hwf g (by simp)
  have hwf3 : ∀ g ∈ [g5, g6], ghIssueWellFormed g = true := by
    intro g hg
    rcases List.mem_cons.1 hg with rfl | hg2
    · exact hwf g (by simp)
    · rcases List.mem_singleton.1 hg2 with rfl
      exact hwf g (by simp)
  have hdb1iss : (UpsertRepository Store.empty (convertGitHubRepositoryToModel gr)).issues
      = ([] : List IssueRow) := UpsertRepository_issues Store.empty _
  have hdb1has : ∀ z, hasIssue
      (UpsertRepository Store.empty (convertGitHubRepositoryToModel gr)) z = false := by
    intro z
    unfold hasIssue
    rw [hdb1iss]
    rfl
  obtain ⟨db2, ep1, hlen2, hhas2⟩ := persistIssues_ok
    (UpsertRepository Store.empty (convertGitHubRepositoryToModel gr)) [g1, g2] hwf1
    (by intro g hg; exact hdb1has _)
    (by simp [List.nodup_cons]; exact h12)
  have hhas2f : ∀ z, (z = g3.id.getD 0 ∨ z = g4.id.getD 0 ∨
      z = g5.id.getD 0 ∨ z = g6.id.getD 0) → hasIssue db2 z = false := by
    intro z hz
    rw [hhas2 z, hdb1has z]
    rcases hz with rfl | rfl | rfl | rfl <;>
      simp [h13, h14, h15, h16, h23, h24, h25, h26]
  obtain ⟨db3, ep2, hlen3, hhas3⟩ := persistIssues_ok db2 [g3, g4] hwf2
    (by
      intro g hg
      rcases List.mem_cons.1 hg with rfl | hg2
      · exact hhas2f _ (Or.inl rfl)
      · rcases List.mem_singleton.1 hg2 with rfl
        exact hhas2f _ (Or.inr (Or.inl rfl)))
    (by simp [List.nodup_cons]; exact h34)
  have hhas3f : ∀ z, (z = g5.id.getD 0 ∨ z = g6.id.getD 0) →
      hasIssue db3 z = false := by
    intro z hz
    rw [hhas3 z, hhas2f z (by tauto)]
    rcases hz with rfl | rfl <;> simp [h35, h36, h45, h46]
  obtain ⟨db4, ep3, hlen4, hhas4⟩ := persistIssues_ok db3 [g5, g6] hwf3
    (by
      intro g hg
      rcases List.mem_cons.1 hg with rfl | hg2
      · exact hhas3f _ (Or.inl rfl)
      · rcases List.mem_singleton.1 hg2 with rfl
        exact hhas3f _ (Or.inr rfl))
    (by simp [List.nodup_cons]; exact h56)
  have L1 : fetchLoop r (k + 4)
        (UpsertRepository Store.empty (convertGitHubRepositoryToModel gr)) 0 0
      = fetchLoop r (k + 3) db2 t1 1 :=
    fetchLoop_step r (k + 3) _ 0 0 [g1, g2] t1 db2 hp0 (by simp) ht1 ep1
  have L2 : fetchLoop r (k + 3) db2 t1 1 = fetchLoop r (k + 2) db3 t2 2 :=
    fetchLoop_step r (k + 2) db2 t1 1 [g3, g4] t2 db3 hp1 (by simp) ht2 ep2
  have L3 : fetchLoop r (k + 2) db3 t2 2 = fetchLoop r (k + 1) db4 t3 3 :=
    fetchLoop_step r (k + 1) db3 t2 2 [g5, g6] t3 db4 hp2 (by simp) ht3 ep3
  have L4 : fetchLoop r (k + 1) db4 t3 3 = ⟨db4, 4, none⟩ :=
    fetchLoop_empty r k db4 t3 3 n hp3
  have hall : FetchAndStoreAllIssues r (k + 4) Store.empty = ⟨db4, 4, none⟩ := by
    unfold FetchAndStoreAllIssues SyncRepository
    simp only [hrepo]
    rw [L1, L2, L3, L4]
  rw [hall]
  refine ⟨rfl, rfl, ?_, ?_⟩
  · rw [hlen4, hlen3, hlen2, hdb1iss]
    rfl
  · intro r2 fuel db page calls issues db2 hp hne hpersist
    exact fetchLoop_lastPage r2 fuel db page calls issues db2 hp hne hpersist

/-- Witness for C6: against `remoteSix`, the sync terminates successfully
with 4 fetch calls and 6 stored issues; and against `remoteOneIssue`,
whose first page is non-empty and carries the no-next-page token 0, the
loop terminates successfully after that single persisted page. -/
theorem c6_three_pages_of_two_then_empty_witness :
    (FetchAndStoreAllIssues remoteSix (0 + 4) Store.empty).res = none ∧
    (FetchAndStoreAllIssues remoteSix (0 + 4) Store.empty).calls = 4 ∧
    (FetchAndStoreAllIssues remoteSix (0 + 4) Store.empty).db.issues.length = 6 ∧
    fetchLoop remoteOneIssue (0 + 1) Store.empty 0 0
      = ⟨(persistIssues Store.empty [ghIssueA]).1, 0 + 1, none⟩ := by
  have h := c6_three_pages_of_two_then_empty 0 2 3 4 0
    (ghIssueN 1) (ghIssueN 2) (ghIssueN 3) (ghIssueN 4) (ghIssueN 5) (ghIssueN 6)
    ghRepoEmpty remoteSix rfl rfl (by decide) rfl (by decide) rfl (by decide) rfl
    (by decide) (by decide)
  exact ⟨h.1, h.2.1, h.2.2.1,
    h.2.2.2 remoteOneIssue 0 Store.empty 0 0 [ghIssueA]
      (persistIssues Store.empty [ghIssueA]).1 rfl (by decide) rfl⟩
